import Mathlib

/-!
# Verification of the SimICU simulation engine

Shallow embedding of the core simulation engine (`sim_icu_logic.py`) and the
observation encoder (`sim_icu_env.py`) of the SimICU repository, together with
proofs of the specification claims.

Modelling conventions:
* Python floats for the patient condition value are modelled as rationals `ℚ`
  (all constants involved, 0.5 / 0.1 / 1.5 / 3.0, are exact decimals).
* The three resource pools are lists of `available` flags; a resource id is its
  index in the pool (the source constructs each pool as objects with ids
  `0 .. n-1` in list order, and only ever scans the list in order).
* A patient's back-references to resources are `Option Nat` (the resource index),
  mirroring the Python object references.
* Randomness (`random.randint(40, 60)`, `int(np.random.exponential(1/rate))`)
  is externalized: every operation that draws randomness takes the drawn values
  as explicit arguments.
* In-place mutation becomes explicit state passing; Python methods on `SimICU`
  become functions `SimICU → ... → SimICU × result`.
-/

/-- Python's built-in `max` on two rationals, kept kernel-computable. -/
def qmax (a b : ℚ) : ℚ := if a ≤ b then b else a

/-- Python's built-in `min` on two rationals, kept kernel-computable. -/
def qmin (a b : ℚ) : ℚ := if a ≤ b then a else b

lemma qmax_eq (a b : ℚ) : qmax a b = max a b := by
  unfold qmax
  rcases le_total a b with h | h
  · rw [if_pos h, max_eq_right h]
  · by_cases he : a ≤ b
    · rw [if_pos he, max_eq_right he]
    · rw [if_neg he, max_eq_left h]

lemma qmin_eq (a b : ℚ) : qmin a b = min a b := by
  unfold qmin
  rcases le_total a b with h | h
  · rw [if_pos h, min_eq_left h]
  · by_cases he : a ≤ b
    · rw [if_pos he, min_eq_left he]
    · rw [if_neg he, min_eq_right h]

/-- Patient status states (`PatientStatus` in `sim_icu_logic.py`). -/
inductive PatientStatus where
  | waiting
  | in_bed
  | on_ventilator
  | cured
  | lost
deriving DecidableEq, Repr

/-- A patient (`Patient` in `sim_icu_logic.py`).  The Python attribute
`severity` is documented in the source as LIFE in 0..100 (0 = death,
100 = full recovery). -/
structure Patient where
  id : Nat
  severity : ℚ
  status : PatientStatus
  time_waiting : Nat
  assigned_nurse : Option Nat
  assigned_bed : Option Nat
  assigned_ventilator : Option Nat
  bed_setup_ticks : Nat
  vent_setup_ticks : Nat
deriving DecidableEq, Repr

/-- The status-specific part of `Patient.update` (lines 41-60 of
`sim_icu_logic.py`): waiting deterioration / bed care / ventilator care. -/
def Patient.tickCare (p : Patient) : Patient :=
  match p.status with
  | .waiting =>
      let tw := p.time_waiting + 1
      let extra : ℚ := ((tw / 20 : Nat) : ℚ) * (1/10)
      { p with time_waiting := tw,
               severity := qmax 0 (p.severity - (1/2 + extra)) }
  | .in_bed =>
      if 0 < p.bed_setup_ticks then { p with bed_setup_ticks := p.bed_setup_ticks - 1 }
      else { p with severity := qmin 100 (p.severity + 3/2) }
  | .on_ventilator =>
      if 0 < p.vent_setup_ticks then { p with vent_setup_ticks := p.vent_setup_ticks - 1 }
      else { p with severity := qmin 100 (p.severity + 3) }
  | .cured => p
  | .lost => p

/-- The terminal-transition part of `Patient.update` (lines 62-68), with the
resource release of `Patient._release_resources` folded in as clearing the
back-references (the pool `available` flags are restored by the caller,
see `SimICU.updateOnePatient`). -/
def Patient.applyTransitions (p : Patient) : Patient :=
  if 100 ≤ p.severity ∧ p.status ≠ .cured then
    { p with status := .cured,
             assigned_nurse := none, assigned_bed := none, assigned_ventilator := none }
  else if p.severity ≤ 0 ∧ p.status ≠ .lost then
    { p with status := .lost,
             assigned_nurse := none, assigned_bed := none, assigned_ventilator := none }
  else p

/-- `Patient.update` from `sim_icu_logic.py`: one tick of per-patient dynamics
followed by the terminal-state check. -/
def Patient.update (p : Patient) : Patient :=
  p.tickCare.applyTransitions

/-- First available resource in a pool (`get_available_nurse` / `_bed` /
`_ventilator` are identical linear scans returning the first `available`
resource; the result is its index). -/
def findAvail : List Bool → Option Nat
  | [] => none
  | b :: rest => if b then some 0 else (findAvail rest).map (· + 1)

/-- Number of available resources in a pool. -/
def countAvail (pool : List Bool) : Nat := pool.countP (fun b => b)

/-- Mark the referenced resource available again (used when a patient's
resources are released on a terminal transition). -/
def releaseRef (pool : List Bool) : Option Nat → List Bool
  | none => pool
  | some i => pool.set i true

/-- Increment a free-count cache when the corresponding resource was held
(`SimICU._release_patient_resources_counters`). -/
def relInc (c : ℤ) : Option Nat → ℤ
  | none => c
  | some _ => c + 1

/-- The simulation aggregate (`SimICU` in `sim_icu_logic.py`).  The private
counters `_free_beds` / `_free_nurses` / `_free_vents` are the fields
`free_beds` / `free_nurses` / `free_vents` (they are plain Python ints, hence
`ℤ`). -/
structure SimICU where
  num_nurses : Nat
  num_beds : Nat
  num_ventilators : Nat
  nurses : List Bool
  beds : List Bool
  ventilators : List Bool
  patients : List Patient
  next_patient_id : Nat
  tick : Nat
  patients_saved : Nat
  patients_lost : Nat
  total_wait_time : Nat
  max_patients_on_arrival : Nat
  arrival_rate : ℚ
  next_arrival : Nat
  just_saved_a_patient : Bool
  just_lost_a_patient : Bool
  just_incurred_setup_delay : Bool
  free_beds : ℤ
  free_nurses : ℤ
  free_vents : ℤ
deriving DecidableEq, Repr

namespace SimICU

/-- `SimICU.get_available_nurse`. -/
def get_available_nurse (s : SimICU) : Option Nat := findAvail s.nurses

/-- `SimICU.get_available_bed`. -/
def get_available_bed (s : SimICU) : Option Nat := findAvail s.beds

/-- `SimICU.get_available_ventilator`. -/
def get_available_ventilator (s : SimICU) : Option Nat := findAvail s.ventilators

/-- `SimICU.reset`.  `gap` is the value drawn by
`_generate_next_arrival`, i.e. `int(np.random.exponential(1/arrival_rate))`. -/
def reset (s : SimICU) (gap : Nat) : SimICU :=
  { s with
    patients := []
    next_patient_id := 0
    tick := 0
    patients_saved := 0
    patients_lost := 0
    total_wait_time := 0
    next_arrival := gap
    free_beds := (s.num_beds : ℤ)
    free_nurses := (s.num_nurses : ℤ)
    free_vents := (s.num_ventilators : ℤ)
    nurses := s.nurses.map (fun _ => true)
    beds := s.beds.map (fun _ => true)
    ventilators := s.ventilators.map (fun _ => true) }

/-- `SimICU.__init__` (defaults: 6 nurses, 10 beds, 4 ventilators,
`max_patients_on_arrival=3`, `arrival_rate=0.10`).  The constructor draws
`next_arrival` once (`gap1`) and then calls `reset`, which draws again
(`gap2`). -/
def init (num_nurses num_beds num_ventilators max_patients_on_arrival : Nat)
    (arrival_rate : ℚ) (gap1 gap2 : Nat) : SimICU :=
  let s : SimICU :=
    { num_nurses := num_nurses
      num_beds := num_beds
      num_ventilators := num_ventilators
      nurses := List.replicate num_nurses true
      beds := List.replicate num_beds true
      ventilators := List.replicate num_ventilators true
      patients := []
      next_patient_id := 0
      tick := 0
      patients_saved := 0
      patients_lost := 0
      total_wait_time := 0
      max_patients_on_arrival := max_patients_on_arrival
      arrival_rate := arrival_rate
      next_arrival := gap1
      just_saved_a_patient := false
      just_lost_a_patient := false
      just_incurred_setup_delay := false
      free_beds := (num_beds : ℤ)
      free_nurses := (num_nurses : ℤ)
      free_vents := (num_ventilators : ℤ) }
  s.reset gap2

/-- `SimICU.add_patient`.  The Python default `initial_severity=None` draws
`random.randint(40, 60)`; the drawn (or supplied) value is the argument. -/
def add_patient (s : SimICU) (initial_severity : ℤ) : SimICU × Patient :=
  let patient : Patient :=
    { id := s.next_patient_id
      severity := (initial_severity : ℚ)
      status := .waiting
      time_waiting := 0
      assigned_nurse := none
      assigned_bed := none
      assigned_ventilator := none
      bed_setup_ticks := 0
      vent_setup_ticks := 0 }
  ({ s with next_patient_id := s.next_patient_id + 1
            patients := s.patients ++ [patient] }, patient)

/-- `SimICU.assign_patient_to_bed`.  The Python method receives the patient
object; here `i` is its position in `s.patients`. -/
def assign_patient_to_bed (s : SimICU) (i : Nat) : SimICU × Bool :=
  match s.patients[i]? with
  | none => (s, false)
  | some p =>
    if p.status ≠ .waiting then (s, false)
    else if s.free_beds ≤ 0 ∨ s.free_nurses ≤ 0 then (s, false)
    else
      match s.get_available_bed, s.get_available_nurse with
      | some b, some n =>
          ({ s with
             patients := s.patients.set i
               { p with assigned_bed := some b, assigned_nurse := some n,
                        status := .in_bed, bed_setup_ticks := 3 }
             beds := s.beds.set b false
             nurses := s.nurses.set n false
             free_beds := s.free_beds - 1
             free_nurses := s.free_nurses - 1 }, true)
      | _, _ => (s, false)

/-- `SimICU.assign_patient_to_specific_bed` (used by the UI).  `bed` is the
clicked bed (``None`` possible), `nurse` an optionally pre-chosen nurse. -/
def assign_patient_to_specific_bed (s : SimICU) (i : Nat)
    (bed : Option Nat) (nurse : Option Nat) : SimICU × Bool :=
  match s.patients[i]? with
  | none => (s, false)
  | some p =>
    if p.status ≠ .waiting then (s, false)
    else
      match bed with
      | none => (s, false)
      | some b =>
        if s.beds[b]? ≠ some true then (s, false)
        else if s.free_beds ≤ 0 ∨ s.free_nurses ≤ 0 then (s, false)
        else
          match (match nurse with | some n => some n | none => s.get_available_nurse) with
          | none => (s, false)
          | some n =>
            if s.nurses[n]? ≠ some true then (s, false)
            else
              ({ s with
                 patients := s.patients.set i
                   { p with assigned_bed := some b, assigned_nurse := some n,
                            status := .in_bed, bed_setup_ticks := 3 }
                 beds := s.beds.set b false
                 nurses := s.nurses.set n false
                 free_beds := s.free_beds - 1
                 free_nurses := s.free_nurses - 1 }, true)

/-- The tail of `SimICU.assign_patient_to_ventilator` (lines 274-281): point
the patient at the ventilator, reserve it, enter ON_VENTILATOR with its setup
countdown, and decrement the free-ventilator cache. -/
def vent_reserve (t : SimICU) (i v : Nat) : SimICU × Bool :=
  match t.patients[i]? with
  | none => (t, false)
  | some p1 =>
      ({ t with
         patients := t.patients.set i
           { p1 with assigned_ventilator := some v,
                     status := .on_ventilator, vent_setup_ticks := 5 }
         ventilators := t.ventilators.set v false
         free_vents := t.free_vents - 1 }, true)

/-- `SimICU.assign_patient_to_ventilator`: requires the patient WAITING or
IN_BED; a WAITING patient is first admitted to a bed (which may fail and
abort the whole action); then the ventilator found before the bed step is
reserved via `vent_reserve`. -/
def assign_patient_to_ventilator (s : SimICU) (i : Nat) : SimICU × Bool :=
  match s.patients[i]? with
  | none => (s, false)
  | some p =>
    if p.status ≠ .waiting ∧ p.status ≠ .in_bed then (s, false)
    else if s.free_vents ≤ 0 then (s, false)
    else
      match s.get_available_ventilator with
      | none => (s, false)
      | some v =>
        if p.status = .waiting then
          if (s.assign_patient_to_bed i).2 = false then ((s.assign_patient_to_bed i).1, false)
          else vent_reserve (s.assign_patient_to_bed i).1 i v
        else vent_reserve s i v

/-- `SimICU.perform_action`: find the patient by id, reject terminal or
unknown patients, then dispatch on the action type
(0 = bed, 1 = ventilator, 2 = no-op). -/
def perform_action (s : SimICU) (patient_id : Nat) (action_type : Nat) : SimICU × Bool :=
  match s.patients.findIdx? (fun p => p.id == patient_id) with
  | none => (s, false)
  | some i =>
    match s.patients[i]? with
    | none => (s, false)
    | some p =>
      if p.status = .cured ∨ p.status = .lost then (s, false)
      else if action_type = 0 then
        (if 0 < s.free_beds ∧ 0 < s.free_nurses then s.assign_patient_to_bed i
         else (s, false))
      else if action_type = 1 then
        (if 0 < s.free_vents then
           let s1 := if p.status = .in_bed then { s with just_incurred_setup_delay := true } else s
           s1.assign_patient_to_ventilator i
         else (s, false))
      else if action_type = 2 then (s, true)
      else (s, false)

/-- One iteration of the patient loop in `SimICU.update_tick` (lines 328-351):
capture the previously held resources, run `Patient.update`, then on a first
transition to CURED/LOST restore the pool flags (done by
`Patient._release_resources` in the source) and the free-count caches
(`_release_patient_resources_counters`), update the outcome counters and
flags, and count waiting time. -/
def updateOnePatient (s : SimICU) (p : Patient) : SimICU × Patient :=
  let prev := p.status
  let had_bed := p.assigned_bed
  let had_nurse := p.assigned_nurse
  let had_vent := p.assigned_ventilator
  let p1 := p.update
  let s1 :=
    if prev ≠ PatientStatus.cured ∧ p1.status = PatientStatus.cured then
      { s with just_saved_a_patient := true
               patients_saved := s.patients_saved + 1
               beds := releaseRef s.beds had_bed
               nurses := releaseRef s.nurses had_nurse
               ventilators := releaseRef s.ventilators had_vent
               free_beds := relInc s.free_beds had_bed
               free_nurses := relInc s.free_nurses had_nurse
               free_vents := relInc s.free_vents had_vent }
    else if prev ≠ PatientStatus.lost ∧ p1.status = PatientStatus.lost then
      { s with just_lost_a_patient := true
               patients_lost := s.patients_lost + 1
               beds := releaseRef s.beds had_bed
               nurses := releaseRef s.nurses had_nurse
               ventilators := releaseRef s.ventilators had_vent
               free_beds := relInc s.free_beds had_bed
               free_nurses := relInc s.free_nurses had_nurse
               free_vents := relInc s.free_vents had_vent }
    else s
  let s2 := if p1.status = PatientStatus.waiting then
              { s1 with total_wait_time := s1.total_wait_time + 1 }
            else s1
  (s2, p1)

/-- The whole patient loop of `SimICU.update_tick`, threading the aggregate
state through the list of patients and collecting their updated versions. -/
def update_patients : SimICU → List Patient → SimICU × List Patient
  | s, [] => (s, [])
  | s, p :: ps =>
    let sp := s.updateOnePatient p
    let rest := sp.1.update_patients ps
    (rest.1, sp.2 :: rest.2)

/-- The two random draws a tick can consume: the `random.randint(40, 60)`
initial condition of an arriving patient and the
`int(np.random.exponential(1/arrival_rate))` gap to the next arrival. -/
structure RandOracle where
  sev_draw : ℤ
  gap_draw : Nat
deriving DecidableEq, Repr

/-- `SimICU.update_tick`: increment the tick, clear the per-tick flags, run
the arrival check (at most one new patient), then update every patient. -/
def update_tick (s : SimICU) (r : RandOracle) : SimICU :=
  let s1 := { s with tick := s.tick + 1
                     just_saved_a_patient := false
                     just_lost_a_patient := false
                     just_incurred_setup_delay := false }
  let s2 :=
    if s1.next_arrival ≤ s1.tick then
      let sa := s1.add_patient r.sev_draw
      { sa.1 with next_arrival := sa.1.tick + r.gap_draw }
    else s1
  let u := s2.update_patients s2.patients
  { u.1 with patients := u.2 }

end SimICU

/-! ## Generic list lemmas used by the invariant proofs -/

lemma getSet_self {α : Type} (l : List α) (i : Nat) (a : α) (h : i < l.length) :
    (l.set i a)[i]? = some a := by
  induction l generalizing i with
  | nil => simp at h
  | cons x xs ih =>
    cases i with
    | zero => simp
    | succ j => simpa using ih j (by simpa using h)

lemma getSet_ne {α : Type} (l : List α) (i j : Nat) (a : α) (h : i ≠ j) :
    (l.set i a)[j]? = l[j]? := by
  induction l generalizing i j with
  | nil => simp
  | cons x xs ih =>
    cases i with
    | zero =>
      cases j with
      | zero => exact absurd rfl h
      | succ k => simp
    | succ i' =>
      cases j with
      | zero => simp
      | succ k => simpa using ih i' k (by omega)

lemma get?_mem {α : Type} {l : List α} {i : Nat} {a : α} (h : l[i]? = some a) : a ∈ l := by
  induction l generalizing i with
  | nil => simp at h
  | cons x xs ih =>
    cases i with
    | zero => simp_all
    | succ j => exact List.mem_cons_of_mem _ (ih (by simpa using h))

lemma memSet {α : Type} {l : List α} {i : Nat} {a x : α} (h : x ∈ l.set i a) :
    x ∈ l ∨ x = a := by
  induction l generalizing i with
  | nil => simp at h
  | cons y ys ih =>
    cases i with
    | zero =>
      rcases List.mem_cons.mp (by simpa using h) with h1 | h1
      · exact Or.inr h1
      · exact Or.inl (List.mem_cons_of_mem _ h1)
    | succ j =>
      rcases List.mem_cons.mp (by simpa using h) with h1 | h1
      · exact Or.inl (by simp [h1])
      · rcases ih h1 with h2 | h2
        · exact Or.inl (List.mem_cons_of_mem _ h2)
        · exact Or.inr h2

lemma countAvail_cons (b : Bool) (l : List Bool) :
    countAvail (b :: l) = (if b then 1 else 0) + countAvail l := by
  simp [countAvail, List.countP_cons]
  cases b <;> simp [Nat.add_comm]

lemma countAvail_set (l : List Bool) (i : Nat) (b c : Bool) (h : l[i]? = some c) :
    (countAvail (l.set i b) : ℤ) =
      (countAvail l : ℤ) + (if b then 1 else 0) - (if c then 1 else 0) := by
  induction l generalizing i with
  | nil => simp at h
  | cons x xs ih =>
    cases i with
    | zero =>
      have hx : x = c := by simpa using h
      subst hx
      simp [countAvail_cons]
      cases b <;> cases x <;> simp <;> ring
    | succ j =>
      have := ih j (by simpa using h)
      simp only [List.set_cons_succ, countAvail_cons] at *
      push_cast at *
      omega

lemma countAvail_le (l : List Bool) : countAvail l ≤ l.length := by
  simpa [countAvail] using List.countP_le_length (p := fun b => b) (l := l)

lemma countAvail_replicate (n : Nat) : countAvail (List.replicate n true) = n := by
  induction n with
  | zero => rfl
  | succ m ih =>
    rw [List.replicate_succ, countAvail_cons, ih]
    simp [Nat.add_comm]

lemma countAvail_map_true (l : List Bool) : countAvail (l.map fun _ => true) = l.length := by
  induction l with
  | nil => rfl
  | cons x xs ih =>
    rw [List.map_cons, countAvail_cons, ih]
    simp [Nat.add_comm]

lemma findAvail_spec (l : List Bool) (i : Nat) (h : findAvail l = some i) :
    l[i]? = some true := by
  induction l generalizing i with
  | nil => simp [findAvail] at h
  | cons x xs ih =>
    by_cases hx : x
    · subst hx
      simp [findAvail] at h
      subst h
      simp
    · have hx' : x = false := by simpa using hx
      subst hx'
      simp [findAvail] at h
      rcases h with ⟨j, hj, hji⟩
      subst hji
      simpa using ih j hj

lemma findAvail_of_pos (l : List Bool) (h : 0 < countAvail l) :
    ∃ i, findAvail l = some i := by
  induction l with
  | nil => simp [countAvail] at h
  | cons x xs ih =>
    by_cases hx : x
    · subst hx
      exact ⟨0, by simp [findAvail]⟩
    · have hx' : x = false := by simpa using hx
      subst hx'
      rw [countAvail_cons] at h
      simp at h
      rcases ih h with ⟨i, hi⟩
      exact ⟨i + 1, by simp [findAvail, hi]⟩

lemma mapSet {α β : Type} (f : α → β) (l : List α) (i : Nat) (a : α) :
    (l.set i a).map f = (l.map f).set i (f a) := by
  induction l generalizing i with
  | nil => simp
  | cons x xs ih =>
    cases i with
    | zero => simp
    | succ j => simp [ih]

lemma pairwise_set {α : Type} {R : α → α → Prop} :
    ∀ (l : List α) (i : Nat) (a : α), l.Pairwise R →
    (∀ j, j ≠ i → ∀ y, l[j]? = some y → R a y ∧ R y a) →
    (l.set i a).Pairwise R
  | [], _, _, _, _ => by simp
  | x :: xs, 0, a, hl, ha => by
    rcases List.pairwise_cons.mp hl with ⟨_, htail⟩
    simp only [List.set_cons_zero]
    refine List.pairwise_cons.mpr ⟨?_, htail⟩
    intro y hy
    rcases List.get_of_mem hy with ⟨⟨j, hj⟩, rfl⟩
    exact (ha (j + 1) (by omega) _ (by simp [List.getElem?_eq_getElem hj])).1
  | x :: xs, i + 1, a, hl, ha => by
    rcases List.pairwise_cons.mp hl with ⟨hhead, htail⟩
    simp only [List.set_cons_succ]
    refine List.pairwise_cons.mpr ⟨?_, ?_⟩
    · intro y hy
      rcases memSet hy with h1 | h1
      · exact hhead _ h1
      · subst h1
        exact (ha 0 (by omega) x (by simp)).2
    · exact pairwise_set xs i a htail
        (fun j hj y hy => ha (j + 1) (by omega) y (by simpa using hy))

lemma pairwise_get?_symm {α : Type} {R : α → α → Prop}
    (hsym : ∀ a b, R a b → R b a) :
    ∀ {l : List α} {i j : Nat} {x y : α}, l.Pairwise R → i ≠ j →
    l[i]? = some x → l[j]? = some y → R x y
  | [], i, j, x, y, _, _, hx, _ => by simp at hx
  | a :: l, 0, 0, x, y, _, hij, _, _ => absurd rfl hij
  | a :: l, 0, j + 1, x, y, h, _, hx, hy => by
    have hx' : a = x := by simpa using hx
    subst hx'
    exact (List.pairwise_cons.mp h).1 y (get?_mem (by simpa using hy))
  | a :: l, i + 1, 0, x, y, h, _, hx, hy => by
    have hy' : a = y := by simpa using hy
    subst hy'
    exact hsym _ _ ((List.pairwise_cons.mp h).1 x (get?_mem (by simpa using hx)))
  | a :: l, i + 1, j + 1, x, y, h, hij, hx, hy => by
    have hij' : i ≠ j := by omega
    exact pairwise_get?_symm hsym (List.pairwise_cons.mp h).2 hij'
      (by simpa using hx) (by simpa using hy)

/-! ## Patient-level lemmas -/

/-- The per-tick care step never touches identity, status, or the resource
back-references. -/
lemma Patient.tickCare_frame (p : Patient) :
    p.tickCare.id = p.id ∧ p.tickCare.status = p.status ∧
    p.tickCare.assigned_bed = p.assigned_bed ∧
    p.tickCare.assigned_nurse = p.assigned_nurse ∧
    p.tickCare.assigned_ventilator = p.assigned_ventilator := by
  obtain ⟨i, sev, st, tw, an, ab, av, bs, vs⟩ := p
  cases st <;> simp only [Patient.tickCare] <;> first
    | simp
    | (split <;> simp)

/-- The terminal-transition step never touches severity, identity, waiting
time or the setup countdowns. -/
lemma Patient.applyTransitions_frame (p : Patient) :
    p.applyTransitions.severity = p.severity ∧ p.applyTransitions.id = p.id ∧
    p.applyTransitions.time_waiting = p.time_waiting ∧
    p.applyTransitions.bed_setup_ticks = p.bed_setup_ticks ∧
    p.applyTransitions.vent_setup_ticks = p.vent_setup_ticks := by
  unfold Patient.applyTransitions
  split
  · simp
  · split <;> simp

lemma Patient.update_severity_eq (p : Patient) :
    p.update.severity = p.tickCare.severity :=
  (Patient.applyTransitions_frame p.tickCare).1

lemma Patient.update_id (p : Patient) : p.update.id = p.id := by
  rw [Patient.update, (Patient.applyTransitions_frame p.tickCare).2.1,
    (Patient.tickCare_frame p).1]

/-- `Patient.update` either performs no terminal transition (and is then just
the care step, which preserves status and references), or it clears all three
back-references while newly entering CURED or LOST. -/
lemma Patient.update_cases (p : Patient) :
    (p.update = p.tickCare ∧ p.update.status = p.status ∧
     p.update.assigned_bed = p.assigned_bed ∧
     p.update.assigned_nurse = p.assigned_nurse ∧
     p.update.assigned_ventilator = p.assigned_ventilator) ∨
    (p.update.assigned_bed = none ∧ p.update.assigned_nurse = none ∧
     p.update.assigned_ventilator = none ∧
     ((p.status ≠ .cured ∧ p.update.status = .cured) ∨
      (p.status ≠ .lost ∧ p.update.status = .lost))) := by
  have hfr := Patient.tickCare_frame p
  unfold Patient.update Patient.applyTransitions
  split
  · rename_i hc
    right
    refine ⟨rfl, rfl, rfl, Or.inl ⟨?_, rfl⟩⟩
    rw [← hfr.2.1]
    exact hc.2
  · split
    · rename_i hl
      right
      refine ⟨rfl, rfl, rfl, Or.inr ⟨?_, rfl⟩⟩
      rw [← hfr.2.1]
      exact hl.2
    · left
      exact ⟨rfl, hfr.2.1, hfr.2.2.1, hfr.2.2.2.1, hfr.2.2.2.2⟩

/-- Severity/status well-formedness of a single patient: the condition is in
[0,100], a cured patient sits at the healthy bound and a lost patient at the
dead bound. -/
def SevP (p : Patient) : Prop :=
  0 ≤ p.severity ∧ p.severity ≤ 100 ∧
  (p.status = .cured → 100 ≤ p.severity) ∧
  (p.status = .lost → p.severity ≤ 0)

lemma Patient.tickCare_sev_bounds (p : Patient) (h0 : 0 ≤ p.severity)
    (h1 : p.severity ≤ 100) :
    0 ≤ p.tickCare.severity ∧ p.tickCare.severity ≤ 100 := by
  obtain ⟨i, sev, st, tw, an, ab, av, bs, vs⟩ := p
  simp only at h0 h1
  cases st <;> simp only [Patient.tickCare, qmax_eq, qmin_eq]
  · constructor
    · simp [le_max_iff]
    · have hd : (0 : ℚ) ≤ 1/2 + ((tw + 1) / 20 : Nat) * (1/10) := by positivity
      simp only [max_le_iff]
      constructor
      · linarith
      · linarith
  · split
    · exact ⟨h0, h1⟩
    · constructor
      · simp only [le_min_iff]
        constructor <;> linarith
      · exact min_le_left _ _
  · split
    · exact ⟨h0, h1⟩
    · constructor
      · simp only [le_min_iff]
        constructor <;> linarith
      · exact min_le_left _ _
  · exact ⟨h0, h1⟩
  · exact ⟨h0, h1⟩

/-- The care step fixes a cured patient. -/
lemma Patient.tickCare_cured (p : Patient) (h : p.status = .cured) : p.tickCare = p := by
  obtain ⟨i, sev, st, tw, an, ab, av, bs, vs⟩ := p
  simp only at h
  subst h
  rfl

/-- The care step fixes a lost patient. -/
lemma Patient.tickCare_lost (p : Patient) (h : p.status = .lost) : p.tickCare = p := by
  obtain ⟨i, sev, st, tw, an, ab, av, bs, vs⟩ := p
  simp only at h
  subst h
  rfl

/-- If the updated patient is cured, either the cured transition just fired
(so the post-care severity reached 100) or it was already cured. -/
lemma Patient.update_cured_sev_ge (p : Patient) (hcu : p.update.status = .cured) :
    100 ≤ p.tickCare.severity ∨ p.status = .cured := by
  unfold Patient.update Patient.applyTransitions at hcu
  by_cases h100 : 100 ≤ p.tickCare.severity ∧ p.tickCare.status ≠ PatientStatus.cured
  · exact Or.inl h100.1
  · rw [if_neg h100] at hcu
    by_cases hlo0 : p.tickCare.severity ≤ 0 ∧ p.tickCare.status ≠ PatientStatus.lost
    · rw [if_pos hlo0] at hcu
      simp at hcu
    · rw [if_neg hlo0, (Patient.tickCare_frame p).2.1] at hcu
      exact Or.inr hcu

/-- If the updated patient is lost, either the lost transition just fired
(so the post-care severity reached 0) or it was already lost. -/
lemma Patient.update_lost_sev_le (p : Patient) (hlo : p.update.status = .lost) :
    p.tickCare.severity ≤ 0 ∨ p.status = .lost := by
  unfold Patient.update Patient.applyTransitions at hlo
  by_cases h100 : 100 ≤ p.tickCare.severity ∧ p.tickCare.status ≠ PatientStatus.cured
  · rw [if_pos h100] at hlo
    simp at hlo
  · rw [if_neg h100] at hlo
    by_cases hlo0 : p.tickCare.severity ≤ 0 ∧ p.tickCare.status ≠ PatientStatus.lost
    · exact Or.inl hlo0.1
    · rw [if_neg hlo0, (Patient.tickCare_frame p).2.1] at hlo
      exact Or.inr hlo

/-- One tick of patient dynamics preserves severity/status well-formedness. -/
lemma Patient.update_sevP (p : Patient) (h : SevP p) : SevP p.update := by
  obtain ⟨h0, h1, hc, hl⟩ := h
  have hb := Patient.tickCare_sev_bounds p h0 h1
  have hsev := Patient.update_severity_eq p
  refine ⟨by rw [hsev]; exact hb.1, by rw [hsev]; exact hb.2, ?_, ?_⟩
  · intro hcu
    rcases Patient.update_cured_sev_ge p hcu with h100 | hpc
    · rw [hsev]
      exact h100
    · rw [hsev, Patient.tickCare_cured p hpc]
      exact hc hpc
  · intro hlo
    rcases Patient.update_lost_sev_le p hlo with hle | hpl
    · rw [hsev]
      exact hle
    · rw [hsev, Patient.tickCare_lost p hpl]
      exact hl hpl

/-- A cured patient with positive severity is completely untouched by
`Patient.update`. -/
lemma Patient.update_cured_fix (p : Patient) (h : p.status = .cured)
    (hs : 0 < p.severity) : p.update = p := by
  have htc := Patient.tickCare_cured p h
  have hA : ¬(100 ≤ p.severity ∧ p.status ≠ PatientStatus.cured) := fun hcon => hcon.2 h
  have hB : ¬(p.severity ≤ 0 ∧ p.status ≠ PatientStatus.lost) := fun hcon =>
    absurd hcon.1 (by linarith)
  unfold Patient.update Patient.applyTransitions
  rw [htc, if_neg hA, if_neg hB]

/-- A lost patient with severity below the healthy bound is completely
untouched by `Patient.update`. -/
lemma Patient.update_lost_fix (p : Patient) (h : p.status = .lost)
    (hs : p.severity < 100) : p.update = p := by
  have htc := Patient.tickCare_lost p h
  have hA : ¬(100 ≤ p.severity ∧ p.status ≠ PatientStatus.cured) := fun hcon =>
    absurd hcon.1 (by linarith)
  have hB : ¬(p.severity ≤ 0 ∧ p.status ≠ PatientStatus.lost) := fun hcon => hcon.2 h
  unfold Patient.update Patient.applyTransitions
  rw [htc, if_neg hA, if_neg hB]

/-! ## The resource-accounting invariant -/

/-- A back-reference is well formed w.r.t. a pool: if present, it points at an
in-range resource that is currently reserved (`available == false`). -/
def refOkB (pool : List Bool) : Option Nat → Bool
  | none => true
  | some i => pool[i]? == some false

/-- Two back-references never point at the same resource. -/
def disjB : Option Nat → Option Nat → Bool
  | some i, some j => i != j
  | _, _ => true

/-- All three back-references of a patient are well formed. -/
def pRefsOk (B N V : List Bool) (p : Patient) : Prop :=
  refOkB B p.assigned_bed = true ∧ refOkB N p.assigned_nurse = true ∧
  refOkB V p.assigned_ventilator = true

/-- Two patients hold disjoint resources (per pool). -/
def pDisj (p q : Patient) : Prop :=
  disjB p.assigned_bed q.assigned_bed = true ∧
  disjB p.assigned_nurse q.assigned_nurse = true ∧
  disjB p.assigned_ventilator q.assigned_ventilator = true

instance (B N V : List Bool) (p : Patient) : Decidable (pRefsOk B N V p) :=
  inferInstanceAs (Decidable (_ = _ ∧ _ = _ ∧ _ = _))

instance : DecidableRel pDisj := fun _ _ =>
  inferInstanceAs (Decidable (_ = _ ∧ _ = _ ∧ _ = _))

/-- Resource accounting for a state whose patient collection is `ps`: the
three free-count caches agree with the pools, every back-reference is well
formed, and no resource is held twice. -/
def SimICU.InvL (s : SimICU) (ps : List Patient) : Prop :=
  s.free_beds = (countAvail s.beds : ℤ) ∧
  s.free_nurses = (countAvail s.nurses : ℤ) ∧
  s.free_vents = (countAvail s.ventilators : ℤ) ∧
  (∀ p ∈ ps, pRefsOk s.beds s.nurses s.ventilators p) ∧
  ps.Pairwise pDisj

/-- The full resource-accounting invariant of a simulation state. -/
def SimICU.Inv (s : SimICU) : Prop :=
  s.beds.length = s.num_beds ∧ s.nurses.length = s.num_nurses ∧
  s.ventilators.length = s.num_ventilators ∧ s.InvL s.patients

instance (s : SimICU) (ps : List Patient) : Decidable (s.InvL ps) :=
  inferInstanceAs (Decidable (_ ∧ _ ∧ _ ∧ _ ∧ _))

instance (s : SimICU) : Decidable s.Inv :=
  inferInstanceAs (Decidable (_ ∧ _ ∧ _ ∧ _))

lemma disjB_symm {a b : Option Nat} (h : disjB a b = true) : disjB b a = true := by
  cases a <;> cases b <;> simp_all [disjB]
  omega

lemma pDisj_symm {p q : Patient} (h : pDisj p q) : pDisj q p :=
  ⟨disjB_symm h.1, disjB_symm h.2.1, disjB_symm h.2.2⟩

lemma refOkB_some {pool : List Bool} {i : Nat} (h : refOkB pool (some i) = true) :
    pool[i]? = some false := by
  simpa [refOkB] using h

lemma refOkB_some_intro {pool : List Bool} {i : Nat} (h : pool[i]? = some false) :
    refOkB pool (some i) = true := by
  simp [refOkB, h]

lemma lt_of_get? {α : Type} {l : List α} {i : Nat} {a : α} (h : l[i]? = some a) :
    i < l.length := by
  induction l generalizing i with
  | nil => simp at h
  | cons x xs ih =>
    cases i with
    | zero => simp
    | succ j => simpa using ih (by simpa using h)

/-- Reserving an available slot does not break a reference pointing at a
reserved slot. -/
lemma refOkB_set_avail {pool : List Bool} {o : Option Nat} {b : Nat} (c : Bool)
    (h : refOkB pool o = true) (hb : pool[b]? = some true) :
    refOkB (pool.set b c) o = true := by
  cases o with
  | none => rfl
  | some j =>
    have hj := refOkB_some h
    have hne : b ≠ j := by
      intro he
      subst he
      rw [hj] at hb
      simp at hb
    exact refOkB_some_intro (by rw [getSet_ne _ _ _ _ hne]; exact hj)

/-- Releasing somebody else's resource does not break a disjoint reference. -/
lemma refOkB_release {pool : List Bool} {o r : Option Nat}
    (h : refOkB pool o = true) (hd : disjB r o = true) :
    refOkB (releaseRef pool r) o = true := by
  cases r with
  | none => exact h
  | some b =>
    cases o with
    | none => rfl
    | some j =>
      have hj := refOkB_some h
      have hne : b ≠ j := by simpa [disjB] using hd
      exact refOkB_some_intro (by
        show (pool.set b true)[j]? = some false
        rw [getSet_ne _ _ _ _ hne]
        exact hj)

/-- A reference to a reserved slot is disjoint from any available slot. -/
lemma disjB_of_refOk_avail {pool : List Bool} {o : Option Nat} {b : Nat}
    (h : refOkB pool o = true) (hb : pool[b]? = some true) :
    disjB (some b) o = true ∧ disjB o (some b) = true := by
  cases o with
  | none => exact ⟨rfl, rfl⟩
  | some j =>
    have hj := refOkB_some h
    have hne : b ≠ j := by
      intro he
      subst he
      rw [hj] at hb
      simp at hb
    constructor <;> simp [disjB, hne, Ne.symm hne]

/-- Releasing a held resource raises the availability count by exactly the
counter increment applied by `_release_patient_resources_counters`. -/
lemma relInc_count {pool : List Bool} {c : ℤ} {r : Option Nat}
    (hc : c = (countAvail pool : ℤ)) (h : refOkB pool r = true) :
    relInc c r = (countAvail (releaseRef pool r) : ℤ) := by
  cases r with
  | none => exact hc
  | some b =>
    have hb := refOkB_some h
    have hcount := countAvail_set pool b true false hb
    show c + 1 = (countAvail (pool.set b true) : ℤ)
    simp at hcount
    omega

lemma releaseRef_length (pool : List Bool) (r : Option Nat) :
    (releaseRef pool r).length = pool.length := by
  cases r with
  | none => rfl
  | some b => simp [releaseRef]

/-- A patient holding nothing is resource-disjoint from everybody. -/
lemma pDisj_none {p q : Patient}
    (hb : p.assigned_bed = none) (hn : p.assigned_nurse = none)
    (hv : p.assigned_ventilator = none) : pDisj p q ∧ pDisj q p := by
  constructor <;> refine ⟨?_, ?_, ?_⟩ <;> simp [hb, hn, hv, disjB]

/-- `pDisj` only looks at the three back-references. -/
lemma pDisj_congr_left {p p1 q : Patient}
    (hb : p1.assigned_bed = p.assigned_bed) (hn : p1.assigned_nurse = p.assigned_nurse)
    (hv : p1.assigned_ventilator = p.assigned_ventilator)
    (h : pDisj p q) : pDisj p1 q := by
  refine ⟨?_, ?_, ?_⟩
  · rw [hb]; exact h.1
  · rw [hn]; exact h.2.1
  · rw [hv]; exact h.2.2

lemma pDisj_congr_right {p p1 q : Patient}
    (hb : p1.assigned_bed = p.assigned_bed) (hn : p1.assigned_nurse = p.assigned_nurse)
    (hv : p1.assigned_ventilator = p.assigned_ventilator)
    (h : pDisj q p) : pDisj q p1 := by
  refine ⟨?_, ?_, ?_⟩
  · rw [hb]; exact h.1
  · rw [hn]; exact h.2.1
  · rw [hv]; exact h.2.2

lemma pairwise_middle_decomp {α : Type} {R : α → α → Prop} {l1 l2 : List α} {p : α}
    (h : (l1 ++ p :: l2).Pairwise R) :
    l1.Pairwise R ∧ l2.Pairwise R ∧ (∀ q ∈ l1, R q p) ∧ (∀ q ∈ l2, R p q) ∧
    (∀ x ∈ l1, ∀ y ∈ l2, R x y) := by
  rw [List.pairwise_append] at h
  obtain ⟨h1, h23, h13⟩ := h
  rw [List.pairwise_cons] at h23
  exact ⟨h1, h23.2, fun q hq => h13 q hq p (by simp), h23.1,
    fun x hx y hy => h13 x hx y (by simp [hy])⟩

lemma pairwise_middle_recomp {α : Type} {R : α → α → Prop} {l1 l2 : List α} {p : α}
    (h1 : l1.Pairwise R) (h2 : l2.Pairwise R) (hp1 : ∀ q ∈ l1, R q p)
    (hp2 : ∀ q ∈ l2, R p q) (h12 : ∀ x ∈ l1, ∀ y ∈ l2, R x y) :
    (l1 ++ p :: l2).Pairwise R := by
  rw [List.pairwise_append]
  refine ⟨h1, List.pairwise_cons.mpr ⟨hp2, h2⟩, ?_⟩
  intro x hx y hy
  rcases List.mem_cons.mp hy with rfl | hy2
  · exact hp1 x hx
  · exact h12 x hx y hy2

/-! ## Preservation of the invariant by every public operation -/

lemma assign_bed_inv (s : SimICU) (i : Nat) (h : s.Inv) :
    (s.assign_patient_to_bed i).1.Inv := by
  obtain ⟨hbl, hnl, hvl, hfb, hfn, hfv, hrefs, hdisj⟩ := h
  unfold SimICU.assign_patient_to_bed
  split
  all_goals try exact ⟨hbl, hnl, hvl, hfb, hfn, hfv, hrefs, hdisj⟩
  split
  all_goals try exact ⟨hbl, hnl, hvl, hfb, hfn, hfv, hrefs, hdisj⟩
  split
  all_goals try exact ⟨hbl, hnl, hvl, hfb, hfn, hfv, hrefs, hdisj⟩
  split
  all_goals try exact ⟨hbl, hnl, hvl, hfb, hfn, hfv, hrefs, hdisj⟩
  rename_i oP p hpi hst hcnt o1 o2 b n hgb hgn
  unfold SimICU.Inv SimICU.InvL
  dsimp only
  have hbtrue : s.beds[b]? = some true := findAvail_spec _ _ hgb
  have hntrue : s.nurses[n]? = some true := findAvail_spec _ _ hgn
  have hblt : b < s.beds.length := lt_of_get? hbtrue
  have hnlt : n < s.nurses.length := lt_of_get? hntrue
  refine ⟨?_, ?_, ?_, ?_, ?_, ?_, ?_, ?_⟩
  · simpa using hbl
  · simpa using hnl
  · exact hvl
  · have hc := countAvail_set s.beds b false true hbtrue
    simp at hc
    omega
  · have hc := countAvail_set s.nurses n false true hntrue
    simp at hc
    omega
  · exact hfv
  · intro q hq
    rcases memSet hq with hql | rfl
    · have hq0 := hrefs q hql
      exact ⟨refOkB_set_avail false hq0.1 hbtrue,
        refOkB_set_avail false hq0.2.1 hntrue, hq0.2.2⟩
    · refine ⟨refOkB_some_intro (getSet_self _ _ _ hblt),
        refOkB_some_intro (getSet_self _ _ _ hnlt), ?_⟩
      exact (hrefs p (get?_mem hpi)).2.2
  · refine pairwise_set s.patients i _ hdisj ?_
    intro j hj y hy
    have hyrefs := hrefs y (get?_mem hy)
    have hdb := disjB_of_refOk_avail hyrefs.1 hbtrue
    have hdn := disjB_of_refOk_avail hyrefs.2.1 hntrue
    have hpy : pDisj p y :=
      pairwise_get?_symm (fun _ _ => pDisj_symm) hdisj (fun he => hj he.symm) hpi hy
    have hyp : pDisj y p :=
      pairwise_get?_symm (fun _ _ => pDisj_symm) hdisj hj hy hpi
    exact ⟨⟨hdb.1, hdn.1, hpy.2.2⟩, ⟨hdb.2, hdn.2, hyp.2.2⟩⟩

/-- Bed admission never touches the ventilator pool, the configured
capacities, the number of patients, or the setup-delay flag. -/
lemma assign_bed_frame (s : SimICU) (i : Nat) :
    (s.assign_patient_to_bed i).1.ventilators = s.ventilators ∧
    (s.assign_patient_to_bed i).1.free_vents = s.free_vents ∧
    (s.assign_patient_to_bed i).1.num_beds = s.num_beds ∧
    (s.assign_patient_to_bed i).1.num_nurses = s.num_nurses ∧
    (s.assign_patient_to_bed i).1.num_ventilators = s.num_ventilators ∧
    (s.assign_patient_to_bed i).1.patients.length = s.patients.length ∧
    (s.assign_patient_to_bed i).1.just_incurred_setup_delay = s.just_incurred_setup_delay := by
  unfold SimICU.assign_patient_to_bed
  split
  all_goals try exact ⟨rfl, rfl, rfl, rfl, rfl, rfl, rfl⟩
  split
  all_goals try exact ⟨rfl, rfl, rfl, rfl, rfl, rfl, rfl⟩
  split
  all_goals try exact ⟨rfl, rfl, rfl, rfl, rfl, rfl, rfl⟩
  split
  all_goals try exact ⟨rfl, rfl, rfl, rfl, rfl, rfl, rfl⟩
  exact ⟨rfl, rfl, rfl, rfl, rfl, by simp, rfl⟩

/-- Bed admission either fails with the state untouched or succeeds. -/
lemma assign_bed_cases (s : SimICU) (i : Nat) :
    s.assign_patient_to_bed i = (s, false) ∨ (s.assign_patient_to_bed i).2 = true := by
  unfold SimICU.assign_patient_to_bed
  split
  all_goals try exact Or.inl rfl
  split
  all_goals try exact Or.inl rfl
  split
  all_goals try exact Or.inl rfl
  split
  all_goals try exact Or.inl rfl
  exact Or.inr rfl

/-- A failed bed admission leaves the state untouched. -/
lemma assign_bed_fail_eq (s : SimICU) (i : Nat)
    (h : (s.assign_patient_to_bed i).2 = false) :
    (s.assign_patient_to_bed i).1 = s := by
  rcases assign_bed_cases s i with he | he
  · rw [he]
  · rw [he] at h
    simp at h

lemma assign_specific_inv (s : SimICU) (i : Nat) (bed nurse : Option Nat) (h : s.Inv) :
    (s.assign_patient_to_specific_bed i bed nurse).1.Inv := by
  obtain ⟨hbl, hnl, hvl, hfb, hfn, hfv, hrefs, hdisj⟩ := h
  unfold SimICU.assign_patient_to_specific_bed
  split
  all_goals try exact ⟨hbl, hnl, hvl, hfb, hfn, hfv, hrefs, hdisj⟩
  split
  all_goals try exact ⟨hbl, hnl, hvl, hfb, hfn, hfv, hrefs, hdisj⟩
  split
  all_goals try exact ⟨hbl, hnl, hvl, hfb, hfn, hfv, hrefs, hdisj⟩
  split
  all_goals try exact ⟨hbl, hnl, hvl, hfb, hfn, hfv, hrefs, hdisj⟩
  split
  all_goals try exact ⟨hbl, hnl, hvl, hfb, hfn, hfv, hrefs, hdisj⟩
  split
  all_goals try exact ⟨hbl, hnl, hvl, hfb, hfn, hfv, hrefs, hdisj⟩
  split
  all_goals try exact ⟨hbl, hnl, hvl, hfb, hfn, hfv, hrefs, hdisj⟩
  rename_i oP p hpi hst oB b hbt hcnt oN n hn hnt
  unfold SimICU.Inv SimICU.InvL
  dsimp only
  have hbtrue : s.beds[b]? = some true := not_not.mp hbt
  have hntrue : s.nurses[n]? = some true := not_not.mp hnt
  have hblt : b < s.beds.length := lt_of_get? hbtrue
  have hnlt : n < s.nurses.length := lt_of_get? hntrue
  refine ⟨?_, ?_, ?_, ?_, ?_, ?_, ?_, ?_⟩
  · simpa using hbl
  · simpa using hnl
  · exact hvl
  · have hc := countAvail_set s.beds b false true hbtrue
    simp at hc
    omega
  · have hc := countAvail_set s.nurses n false true hntrue
    simp at hc
    omega
  · exact hfv
  · intro q hq
    rcases memSet hq with hql | rfl
    · have hq0 := hrefs q hql
      exact ⟨refOkB_set_avail false hq0.1 hbtrue,
        refOkB_set_avail false hq0.2.1 hntrue, hq0.2.2⟩
    · refine ⟨refOkB_some_intro (getSet_self _ _ _ hblt),
        refOkB_some_intro (getSet_self _ _ _ hnlt), ?_⟩
      exact (hrefs p (get?_mem hpi)).2.2
  · refine pairwise_set s.patients i _ hdisj ?_
    intro j hj y hy
    have hyrefs := hrefs y (get?_mem hy)
    have hdb := disjB_of_refOk_avail hyrefs.1 hbtrue
    have hdn := disjB_of_refOk_avail hyrefs.2.1 hntrue
    have hpy : pDisj p y :=
      pairwise_get?_symm (fun _ _ => pDisj_symm) hdisj (fun he => hj he.symm) hpi hy
    have hyp : pDisj y p :=
      pairwise_get?_symm (fun _ _ => pDisj_symm) hdisj hj hy hpi
    exact ⟨⟨hdb.1, hdn.1, hpy.2.2⟩, ⟨hdb.2, hdn.2, hyp.2.2⟩⟩

/-- Reserving one available ventilator for the patient at slot `i` keeps the
invariant. -/
lemma reserve_vent_inv (t : SimICU) (i v : Nat) (p1 : Patient)
    (ht : t.Inv) (hpi : t.patients[i]? = some p1)
    (hvt : t.ventilators[v]? = some true) :
    SimICU.Inv { t with
      patients := t.patients.set i
        { p1 with
          assigned_ventilator := some v
          status := PatientStatus.on_ventilator
          vent_setup_ticks := 5 }
      ventilators := t.ventilators.set v false
      free_vents := t.free_vents - 1 } := by
  obtain ⟨hbl, hnl, hvl, hfb, hfn, hfv, hrefs, hdisj⟩ := ht
  have hvlt : v < t.ventilators.length := lt_of_get? hvt
  unfold SimICU.Inv SimICU.InvL
  dsimp only
  refine ⟨hbl, hnl, ?_, hfb, hfn, ?_, ?_, ?_⟩
  · simpa using hvl
  · have hc := countAvail_set t.ventilators v false true hvt
    simp at hc
    omega
  · intro q hq
    rcases memSet hq with hql | rfl
    · have hq0 := hrefs q hql
      exact ⟨hq0.1, hq0.2.1, refOkB_set_avail false hq0.2.2 hvt⟩
    · have hp0 := hrefs p1 (get?_mem hpi)
      exact ⟨hp0.1, hp0.2.1, refOkB_some_intro (getSet_self _ _ _ hvlt)⟩
  · refine pairwise_set t.patients i _ hdisj ?_
    intro j hj y hy
    have hyrefs := hrefs y (get?_mem hy)
    have hdv := disjB_of_refOk_avail hyrefs.2.2 hvt
    have hpy : pDisj p1 y :=
      pairwise_get?_symm (fun _ _ => pDisj_symm) hdisj (fun he => hj he.symm) hpi hy
    have hyp : pDisj y p1 :=
      pairwise_get?_symm (fun _ _ => pDisj_symm) hdisj hj hy hpi
    exact ⟨⟨hpy.1, hpy.2.1, hdv.1⟩, ⟨hyp.1, hyp.2.1, hdv.2⟩⟩

lemma vent_reserve_inv (t : SimICU) (i v : Nat) (ht : t.Inv)
    (hvt : t.ventilators[v]? = some true) :
    (t.vent_reserve i v).1.Inv := by
  unfold SimICU.vent_reserve
  split
  · exact ht
  · rename_i p1 hpi
    exact reserve_vent_inv t i v p1 ht hpi hvt

lemma assign_vent_inv (s : SimICU) (i : Nat) (h : s.Inv) :
    (s.assign_patient_to_ventilator i).1.Inv := by
  unfold SimICU.assign_patient_to_ventilator
  split
  all_goals try exact h
  split
  all_goals try exact h
  split
  all_goals try exact h
  split
  all_goals try exact h
  rename_i oP p hpi hst hcnt v hgv
  have hvt : s.ventilators[v]? = some true := findAvail_spec _ _ hgv
  have hframe := assign_bed_frame s i
  split
  · split
    · exact assign_bed_inv s i h
    · refine vent_reserve_inv _ i v (assign_bed_inv s i h) ?_
      rw [hframe.1]
      exact hvt
  · exact vent_reserve_inv s i v h hvt

lemma perform_action_inv (s : SimICU) (pid a : Nat) (h : s.Inv) :
    (s.perform_action pid a).1.Inv := by
  unfold SimICU.perform_action
  split
  all_goals try exact h
  split
  all_goals try exact h
  split
  all_goals try exact h
  split
  · split
    · exact assign_bed_inv s _ h
    · exact h
  · split
    · split
      · split
        · exact assign_vent_inv _ _ h
        · exact assign_vent_inv _ _ h
      · exact h
    · split
      · exact h
      · exact h

/-- Processing one patient inside the tick loop preserves the resource
accounting, where `done` are the already-processed patients and `todo` the
remaining ones. -/
lemma updateOnePatient_invL (s : SimICU) (p : Patient) (done todo : List Patient)
    (h : s.InvL (done ++ p :: todo)) :
    (s.updateOnePatient p).1.InvL (done ++ (s.updateOnePatient p).2 :: todo) ∧
    (s.updateOnePatient p).1.beds.length = s.beds.length ∧
    (s.updateOnePatient p).1.nurses.length = s.nurses.length ∧
    (s.updateOnePatient p).1.ventilators.length = s.ventilators.length := by
  obtain ⟨hfb, hfn, hfv, hrefs, hdisj⟩ := h
  obtain ⟨hd1, hd2, hqp, hpq, h12⟩ := pairwise_middle_decomp hdisj
  have hpmem : p ∈ done ++ p :: todo := by simp
  have hprefs := hrefs p hpmem
  unfold SimICU.updateOnePatient
  dsimp only
  rcases Patient.update_cases p with ⟨-, hst, hbeq, hneq, hveq⟩ | ⟨hb0, hn0, hv0, htr⟩
  · -- no transition: the release branches are dead and the state is unchanged
    have hc1 : ¬(p.status ≠ PatientStatus.cured ∧
        p.update.status = PatientStatus.cured) := by
      rw [hst]
      rintro ⟨hne, he⟩
      exact hne he
    have hc2 : ¬(p.status ≠ PatientStatus.lost ∧
        p.update.status = PatientStatus.lost) := by
      rw [hst]
      rintro ⟨hne, he⟩
      exact hne he
    have key : ∀ t : SimICU, t.beds = s.beds → t.nurses = s.nurses →
        t.ventilators = s.ventilators → t.free_beds = s.free_beds →
        t.free_nurses = s.free_nurses → t.free_vents = s.free_vents →
        t.InvL (done ++ p.update :: todo) := by
      intro t e1 e2 e3 e4 e5 e6
      refine ⟨by rw [e4, e1]; exact hfb, by rw [e5, e2]; exact hfn,
        by rw [e6, e3]; exact hfv, ?_, ?_⟩
      · intro q hq
        rw [e1, e2, e3]
        rcases List.mem_append.mp hq with hq | hq
        · exact hrefs q (by simp [hq])
        · rcases List.mem_cons.mp hq with rfl | hq
          · exact ⟨by rw [hbeq]; exact hprefs.1, by rw [hneq]; exact hprefs.2.1,
              by rw [hveq]; exact hprefs.2.2⟩
          · exact hrefs q (by simp [hq])
      · refine pairwise_middle_recomp hd1 hd2 ?_ ?_ h12
        · intro q hq
          exact pDisj_congr_right hbeq hneq hveq (hqp q hq)
        · intro q hq
          exact pDisj_congr_left hbeq hneq hveq (hpq q hq)
    split <;> first
      | exact ⟨key _ rfl rfl rfl rfl rfl rfl, rfl, rfl, rfl⟩
      | (simp_all; done)
      | (split <;> first
          | exact ⟨key _ rfl rfl rfl rfl rfl rfl, rfl, rfl, rfl⟩
          | (simp_all; done)
          | (split <;> first
              | exact ⟨key _ rfl rfl rfl rfl rfl rfl, rfl, rfl, rfl⟩
              | (simp_all; done)))
  · -- a terminal transition: the held resources are released
    have key : ∀ t : SimICU, t.beds = releaseRef s.beds p.assigned_bed →
        t.nurses = releaseRef s.nurses p.assigned_nurse →
        t.ventilators = releaseRef s.ventilators p.assigned_ventilator →
        t.free_beds = relInc s.free_beds p.assigned_bed →
        t.free_nurses = relInc s.free_nurses p.assigned_nurse →
        t.free_vents = relInc s.free_vents p.assigned_ventilator →
        t.InvL (done ++ p.update :: todo) := by
      intro t e1 e2 e3 e4 e5 e6
      refine ⟨by rw [e4, e1]; exact relInc_count hfb hprefs.1,
        by rw [e5, e2]; exact relInc_count hfn hprefs.2.1,
        by rw [e6, e3]; exact relInc_count hfv hprefs.2.2, ?_, ?_⟩
      · intro q hq
        rw [e1, e2, e3]
        rcases List.mem_append.mp hq with hq | hq
        · have hq0 := hrefs q (by simp [hq])
          have hdq := pDisj_symm (hqp q hq)
          exact ⟨refOkB_release hq0.1 hdq.1, refOkB_release hq0.2.1 hdq.2.1,
            refOkB_release hq0.2.2 hdq.2.2⟩
        · rcases List.mem_cons.mp hq with rfl | hq
          · exact ⟨by rw [hb0]; rfl, by rw [hn0]; rfl, by rw [hv0]; rfl⟩
          · have hq0 := hrefs q (by simp [hq])
            have hdq := hpq q hq
            exact ⟨refOkB_release hq0.1 hdq.1, refOkB_release hq0.2.1 hdq.2.1,
              refOkB_release hq0.2.2 hdq.2.2⟩
      · refine pairwise_middle_recomp hd1 hd2 ?_ ?_ h12
        · intro q hq
          exact (pDisj_none hb0 hn0 hv0).2
        · intro q hq
          exact (pDisj_none hb0 hn0 hv0).1
    have hlen : ∀ (pool : List Bool) (o : Option Nat),
        (releaseRef pool o).length = pool.length := releaseRef_length
    rcases htr with ⟨hne, hcu⟩ | ⟨hne, hlo⟩ <;>
      (split <;> first
        | exact ⟨key _ rfl rfl rfl rfl rfl rfl, hlen _ _, hlen _ _, hlen _ _⟩
        | (rename_i hcond; exact absurd (And.intro hne hcu) hcond)
        | (rename_i hcond; exact absurd (And.intro hne hlo) hcond)
        | (simp_all; done)
        | (split <;> first
            | exact ⟨key _ rfl rfl rfl rfl rfl rfl, hlen _ _, hlen _ _, hlen _ _⟩
            | (rename_i hcond; exact absurd (And.intro hne hcu) hcond)
            | (rename_i hcond; exact absurd (And.intro hne hlo) hcond)
            | (simp_all; done)
            | (split <;> first
                | exact ⟨key _ rfl rfl rfl rfl rfl rfl, hlen _ _, hlen _ _, hlen _ _⟩
                | (rename_i hcond; exact absurd (And.intro hne hcu) hcond)
                | (rename_i hcond; exact absurd (And.intro hne hlo) hcond)
                | (simp_all; done))))

/-- The patient loop preserves the resource accounting. -/
lemma update_patients_invL :
    ∀ (todo : List Patient) (s : SimICU) (done : List Patient),
    s.InvL (done ++ todo) →
    (s.update_patients todo).1.InvL (done ++ (s.update_patients todo).2) ∧
    (s.update_patients todo).1.beds.length = s.beds.length ∧
    (s.update_patients todo).1.nurses.length = s.nurses.length ∧
    (s.update_patients todo).1.ventilators.length = s.ventilators.length
  | [], s, done, h => by
    unfold SimICU.update_patients
    simpa using h
  | p :: ps, s, done, h => by
    have h1 := updateOnePatient_invL s p done ps h
    have h2 := update_patients_invL ps (s.updateOnePatient p).1 (done ++ [(s.updateOnePatient p).2])
      (by simpa using h1.1)
    unfold SimICU.update_patients
    dsimp only
    refine ⟨by simpa using h2.1, ?_, ?_, ?_⟩
    · rw [h2.2.1, h1.2.1]
    · rw [h2.2.2.1, h1.2.2.1]
    · rw [h2.2.2.2, h1.2.2.2]

/-- `add_patient` preserves the resource accounting (the fresh patient holds
nothing). -/
lemma add_patient_invL (s : SimICU) (v : ℤ) (h : s.InvL s.patients) :
    (s.add_patient v).1.InvL (s.add_patient v).1.patients := by
  obtain ⟨hfb, hfn, hfv, hrefs, hdisj⟩ := h
  unfold SimICU.add_patient
  dsimp only
  refine ⟨hfb, hfn, hfv, ?_, ?_⟩
  · intro q hq
    rcases List.mem_append.mp hq with hq | hq
    · exact hrefs q hq
    · rcases List.mem_cons.mp hq with rfl | hq
      · exact ⟨rfl, rfl, rfl⟩
      · simp at hq
  · rw [List.pairwise_append]
    refine ⟨hdisj, by simp, ?_⟩
    intro x hx y hy
    rcases List.mem_cons.mp hy with rfl | hy
    · exact (pDisj_none rfl rfl rfl).2
    · simp at hy

/-- `updateOnePatient` returns the updated patient unchanged by the
surrounding bookkeeping. -/
lemma updateOnePatient_snd (s : SimICU) (p : Patient) :
    (s.updateOnePatient p).2 = p.update := rfl

/-- The per-patient bookkeeping never touches the configured capacities, the
clock, the arrival schedule, the id counter or the patient list field. -/
lemma updateOnePatient_frame (s : SimICU) (p : Patient) :
    (s.updateOnePatient p).1.num_beds = s.num_beds ∧
    (s.updateOnePatient p).1.num_nurses = s.num_nurses ∧
    (s.updateOnePatient p).1.num_ventilators = s.num_ventilators ∧
    (s.updateOnePatient p).1.tick = s.tick ∧
    (s.updateOnePatient p).1.next_arrival = s.next_arrival ∧
    (s.updateOnePatient p).1.next_patient_id = s.next_patient_id ∧
    (s.updateOnePatient p).1.patients = s.patients := by
  unfold SimICU.updateOnePatient
  dsimp only
  split <;> first
    | exact ⟨rfl, rfl, rfl, rfl, rfl, rfl, rfl⟩
    | (split <;> first
        | exact ⟨rfl, rfl, rfl, rfl, rfl, rfl, rfl⟩
        | (split <;> exact ⟨rfl, rfl, rfl, rfl, rfl, rfl, rfl⟩))

/-- The tick loop: state frame facts, and the output list is exactly the
pointwise `Patient.update` of the input list. -/
lemma update_patients_frame :
    ∀ (todo : List Patient) (s : SimICU),
    (s.update_patients todo).1.num_beds = s.num_beds ∧
    (s.update_patients todo).1.num_nurses = s.num_nurses ∧
    (s.update_patients todo).1.num_ventilators = s.num_ventilators ∧
    (s.update_patients todo).1.tick = s.tick ∧
    (s.update_patients todo).1.next_arrival = s.next_arrival ∧
    (s.update_patients todo).1.next_patient_id = s.next_patient_id ∧
    (s.update_patients todo).2 = todo.map Patient.update
  | [], s => by
    unfold SimICU.update_patients
    exact ⟨rfl, rfl, rfl, rfl, rfl, rfl, rfl⟩
  | p :: ps, s => by
    have h1 := updateOnePatient_frame s p
    have h2 := update_patients_frame ps (s.updateOnePatient p).1
    unfold SimICU.update_patients
    dsimp only
    refine ⟨?_, ?_, ?_, ?_, ?_, ?_, ?_⟩
    · rw [h2.1, h1.1]
    · rw [h2.2.1, h1.2.1]
    · rw [h2.2.2.1, h1.2.2.1]
    · rw [h2.2.2.2.1, h1.2.2.2.1]
    · rw [h2.2.2.2.2.1, h1.2.2.2.2.1]
    · rw [h2.2.2.2.2.2.1, h1.2.2.2.2.2.1]
    · rw [List.map_cons, ← h2.2.2.2.2.2.2, ← updateOnePatient_snd s p]

/-- Core of `update_tick`: running the patient loop from any state whose
accounting is sound yields a sound state. -/
lemma tick_core (X : SimICU) (hX : X.InvL X.patients)
    (hb : X.beds.length = X.num_beds) (hn : X.nurses.length = X.num_nurses)
    (hv : X.ventilators.length = X.num_ventilators) :
    SimICU.Inv { (X.update_patients X.patients).1 with
                 patients := (X.update_patients X.patients).2 } := by
  have hloop := update_patients_invL X.patients X [] (by simpa using hX)
  have hfr := update_patients_frame X.patients X
  refine ⟨?_, ?_, ?_, ?_⟩
  · show (X.update_patients X.patients).1.beds.length =
        (X.update_patients X.patients).1.num_beds
    rw [hloop.2.1, hfr.1, hb]
  · show (X.update_patients X.patients).1.nurses.length =
        (X.update_patients X.patients).1.num_nurses
    rw [hloop.2.2.1, hfr.2.1, hn]
  · show (X.update_patients X.patients).1.ventilators.length =
        (X.update_patients X.patients).1.num_ventilators
    rw [hloop.2.2.2, hfr.2.2.1, hv]
  · simpa using hloop.1

/-- `update_tick` preserves the full invariant. -/
lemma update_tick_inv (s : SimICU) (r : SimICU.RandOracle) (h : s.Inv) :
    (s.update_tick r).Inv := by
  obtain ⟨hbl, hnl, hvl, hil⟩ := h
  unfold SimICU.update_tick
  dsimp only
  split
  · exact tick_core _ (add_patient_invL
      { s with tick := s.tick + 1, just_saved_a_patient := false,
               just_lost_a_patient := false, just_incurred_setup_delay := false }
      r.sev_draw hil) hbl hnl hvl
  · exact tick_core _ hil hbl hnl hvl

/-- `reset` restores the invariant. -/
lemma reset_inv (s : SimICU) (g : Nat) (h : s.Inv) : (s.reset g).Inv := by
  obtain ⟨hbl, hnl, hvl, -⟩ := h
  unfold SimICU.reset
  refine ⟨by simpa using hbl, by simpa using hnl, by simpa using hvl, ?_, ?_, ?_, ?_, ?_⟩
  · show (s.num_beds : ℤ) = (countAvail (s.beds.map fun _ => true) : ℤ)
    rw [countAvail_map_true, hbl]
  · show (s.num_nurses : ℤ) = (countAvail (s.nurses.map fun _ => true) : ℤ)
    rw [countAvail_map_true, hnl]
  · show (s.num_ventilators : ℤ) = (countAvail (s.ventilators.map fun _ => true) : ℤ)
    rw [countAvail_map_true, hvl]
  · intro q hq
    simp at hq
  · simp

/-- A freshly constructed engine satisfies the invariant. -/
lemma init_inv (nn nb nv mpa : Nat) (ar : ℚ) (g1 g2 : Nat) :
    (SimICU.init nn nb nv mpa ar g1 g2).Inv := by
  unfold SimICU.init
  dsimp only
  apply reset_inv
  exact ⟨by simp, by simp, by simp, by simp [countAvail_replicate],
    by simp [countAvail_replicate], by simp [countAvail_replicate],
    by intro q hq; simp at hq, by simp⟩

/-- The public operations of the engine: construction, reset, the three
assignment entry points, the action dispatcher, and the tick driver.  The
tick oracle's severity draw is constrained to the range of
`random.randint(40, 60)`. -/
inductive Reachable : SimICU → Prop where
  | init_state (nn nb nv mpa : Nat) (ar : ℚ) (g1 g2 : Nat) :
      Reachable (SimICU.init nn nb nv mpa ar g1 g2)
  | reset_op {s : SimICU} (g : Nat) : Reachable s → Reachable (s.reset g)
  | bed_op {s : SimICU} (i : Nat) : Reachable s →
      Reachable (s.assign_patient_to_bed i).1
  | specific_op {s : SimICU} (i : Nat) (b n : Option Nat) : Reachable s →
      Reachable (s.assign_patient_to_specific_bed i b n).1
  | vent_op {s : SimICU} (i : Nat) : Reachable s →
      Reachable (s.assign_patient_to_ventilator i).1
  | act_op {s : SimICU} (pid a : Nat) : Reachable s →
      Reachable (s.perform_action pid a).1
  | tick_op {s : SimICU} (r : SimICU.RandOracle) (h40 : 40 ≤ r.sev_draw)
      (h60 : r.sev_draw ≤ 60) : Reachable s → Reachable (s.update_tick r)

/-- Every reachable state satisfies the resource-accounting invariant. -/
lemma reachable_inv {s : SimICU} (h : Reachable s) : s.Inv := by
  induction h with
  | init_state nn nb nv mpa ar g1 g2 => exact init_inv nn nb nv mpa ar g1 g2
  | reset_op g _ ih => exact reset_inv _ g ih
  | bed_op i _ ih => exact assign_bed_inv _ i ih
  | specific_op i b n _ ih => exact assign_specific_inv _ i b n ih
  | vent_op i _ ih => exact assign_vent_inv _ i ih
  | act_op pid a _ ih => exact perform_action_inv _ pid a ih
  | tick_op r h40 h60 _ ih => exact update_tick_inv _ r ih

/-- Number of reserved (unavailable) resources in a pool. -/
def countReserved (pool : List Bool) : Nat := pool.countP (fun b => !b)

lemma countAvail_add_countReserved (l : List Bool) :
    countAvail l + countReserved l = l.length := by
  induction l with
  | nil => rfl
  | cons x xs ih =>
    rw [countAvail_cons]
    cases x <;> simp [countReserved, List.countP_cons, countAvail, List.length_cons] at * <;> omega

/-- A concrete reachable state used by witnesses: a fresh 2-bed / 2-nurse /
1-ventilator engine, ticked once (one arrival with condition 50), with the
arrived patient then admitted to a bed. -/
def witnessState : SimICU :=
  ((SimICU.init 2 2 1 3 (1/10) 0 1).update_tick ⟨50, 5⟩).perform_action 0 0 |>.1

/-- C1: in every reachable simulation state each free-count cache equals the
number of available resources in its pool, and equivalently free count plus
reserved count equals the fixed pool size. -/
theorem C1_free_count_caches (s : SimICU) (h : Reachable s) :
    s.free_beds = (countAvail s.beds : ℤ) ∧
    s.free_nurses = (countAvail s.nurses : ℤ) ∧
    s.free_vents = (countAvail s.ventilators : ℤ) ∧
    s.free_beds + (countReserved s.beds : ℤ) = (s.num_beds : ℤ) ∧
    s.free_nurses + (countReserved s.nurses : ℤ) = (s.num_nurses : ℤ) ∧
    s.free_vents + (countReserved s.ventilators : ℤ) = (s.num_ventilators : ℤ) := by
  obtain ⟨hbl, hnl, hvl, hfb, hfn, hfv, -, -⟩ := reachable_inv h
  have h1 := countAvail_add_countReserved s.beds
  have h2 := countAvail_add_countReserved s.nurses
  have h3 := countAvail_add_countReserved s.ventilators
  refine ⟨hfb, hfn, hfv, ?_, ?_, ?_⟩ <;> omega

/-- Witness for C1 at a concrete reachable state (one tick, one arrival, one
bed admission). -/
theorem C1_free_count_caches_witness :
    witnessState.free_beds = (countAvail witnessState.beds : ℤ) ∧
    witnessState.free_nurses = (countAvail witnessState.nurses : ℤ) ∧
    witnessState.free_vents = (countAvail witnessState.ventilators : ℤ) ∧
    witnessState.free_beds + (countReserved witnessState.beds : ℤ) =
      (witnessState.num_beds : ℤ) ∧
    witnessState.free_nurses + (countReserved witnessState.nurses : ℤ) =
      (witnessState.num_nurses : ℤ) ∧
    witnessState.free_vents + (countReserved witnessState.ventilators : ℤ) =
      (witnessState.num_ventilators : ℤ) :=
  C1_free_count_caches witnessState
    (Reachable.act_op 0 0
      (Reachable.tick_op ⟨50, 5⟩ (by decide) (by decide)
        (Reachable.init_state 2 2 1 3 (1/10) 0 1)))

lemma final_patients (X : SimICU) :
    ({ (X.update_patients X.patients).1 with
       patients := (X.update_patients X.patients).2 } : SimICU).patients =
      X.patients.map Patient.update ∧
    ({ (X.update_patients X.patients).1 with
       patients := (X.update_patients X.patients).2 } : SimICU).next_arrival =
      X.next_arrival ∧
    ({ (X.update_patients X.patients).1 with
       patients := (X.update_patients X.patients).2 } : SimICU).tick = X.tick := by
  have hfr := update_patients_frame X.patients X
  exact ⟨hfr.2.2.2.2.2.2, hfr.2.2.2.2.1, hfr.2.2.2.1⟩

lemma update_tick_patients (s : SimICU) (r : SimICU.RandOracle) :
    (s.update_tick r).patients =
      (if s.next_arrival ≤ s.tick + 1 then
        s.patients ++
          [{ id := s.next_patient_id, severity := (r.sev_draw : ℚ),
             status := PatientStatus.waiting, time_waiting := 0,
             assigned_nurse := none, assigned_bed := none,
             assigned_ventilator := none, bed_setup_ticks := 0,
             vent_setup_ticks := 0 }]
       else s.patients).map Patient.update ∧
    (s.update_tick r).next_arrival =
      (if s.next_arrival ≤ s.tick + 1 then (s.tick + 1) + r.gap_draw
       else s.next_arrival) ∧
    (s.update_tick r).tick = s.tick + 1 := by
  unfold SimICU.update_tick
  dsimp only
  split <;>
    exact ⟨(final_patients _).1, (final_patients _).2.1, (final_patients _).2.2⟩

/-- C5: each `update_tick` creates at most one patient however far the tick
has overshot `next_arrival`; when the (already incremented) tick has reached
`next_arrival`, exactly one patient is created — via `add_patient`, whose
default initial condition is the `randint(40, 60)` draw, starting WAITING —
and `next_arrival` is redrawn as the current tick plus a fresh exponential
draw. -/
theorem C5_arrival_process (s : SimICU) (r : SimICU.RandOracle) :
    (s.update_tick r).patients.length ≤ s.patients.length + 1 ∧
    ((s.add_patient r.sev_draw).2.severity = (r.sev_draw : ℚ) ∧
     (s.add_patient r.sev_draw).2.status = PatientStatus.waiting ∧
     (s.add_patient r.sev_draw).1.patients =
       s.patients ++ [(s.add_patient r.sev_draw).2]) ∧
    (s.next_arrival ≤ s.tick + 1 →
      (s.update_tick r).patients.length = s.patients.length + 1 ∧
      (s.update_tick r).next_arrival = (s.tick + 1) + r.gap_draw) ∧
    (¬ s.next_arrival ≤ s.tick + 1 →
      (s.update_tick r).patients.length = s.patients.length ∧
      (s.update_tick r).next_arrival = s.next_arrival) := by
  obtain ⟨hp, hna, -⟩ := update_tick_patients s r
  refine ⟨?_, ⟨rfl, rfl, rfl⟩, ?_, ?_⟩
  · rw [hp]
    split <;> simp
  · intro hc
    rw [hp, hna, if_pos hc, if_pos hc]
    simp
  · intro hc
    rw [hp, hna, if_neg hc, if_neg hc]
    simp

/-- Witness for C5 at a concrete state: a fresh engine whose first tick
triggers an arrival. -/
theorem C5_arrival_process_witness :
    (((SimICU.init 2 2 1 3 (1/10) 0 1).update_tick ⟨50, 5⟩).patients.length ≤
      (SimICU.init 2 2 1 3 (1/10) 0 1).patients.length + 1) ∧
    (SimICU.init 2 2 1 3 (1/10) 0 1).next_arrival ≤
      (SimICU.init 2 2 1 3 (1/10) 0 1).tick + 1 ∧
    ((SimICU.init 2 2 1 3 (1/10) 0 1).update_tick ⟨50, 5⟩).patients.length =
      (SimICU.init 2 2 1 3 (1/10) 0 1).patients.length + 1 := by
  have h := C5_arrival_process (SimICU.init 2 2 1 3 (1/10) 0 1) ⟨50, 5⟩
  have hc : (SimICU.init 2 2 1 3 (1/10) 0 1).next_arrival ≤
      (SimICU.init 2 2 1 3 (1/10) 0 1).tick + 1 := by decide
  exact ⟨h.1, hc, (h.2.2.1 hc).1⟩

/-- The simulation-state effect of `SimICUEnv.step` (`sim_icu_env.py` lines
145-203): validate the `(patient_slot_id, action_type)` pair against the
current patient list (out-of-range slot, terminal patient, or an
unsatisfiable resource demand invalidate it), apply the action immediately
via `perform_action`, then advance the game one tick.  The reward and
observation outputs only read the state and are modelled separately. -/
def SimICUEnv.step_sim (game : SimICU) (patient_slot_id action_type : Nat)
    (r : SimICU.RandOracle) : SimICU :=
  let validated : Option Patient :=
    match game.patients[patient_slot_id]? with
    | none => none
    | some p =>
      if p.status = PatientStatus.cured ∨ p.status = PatientStatus.lost then none
      else if action_type = 0 ∧ (game.free_beds = 0 ∨ game.free_nurses = 0) then none
      else if action_type = 1 ∧ (game.free_vents = 0 ∨ game.free_nurses < 2) then none
      else some p
  let g1 := match validated with
    | some p => if action_type ≠ 2 then (game.perform_action p.id action_type).1 else game
    | none => game
  g1.update_tick r

/-- Modelled from the spec: the tick-driver phase order claimed in §4.5 (and
absent as such from the code) — (1) advance the arrival process against the
current, not-yet-incremented tick, (2) [the decision is applied externally],
(3) update every patient, (4) increment the tick counter last. -/
def update_tick_claimed (s : SimICU) (r : SimICU.RandOracle) : SimICU :=
  let s1 := if s.next_arrival ≤ s.tick then
      let sa := s.add_patient r.sev_draw
      { sa.1 with next_arrival := sa.1.tick + r.gap_draw }
    else s
  let u := s1.update_patients s1.patients
  { u.1 with patients := u.2, tick := u.1.tick + 1 }

lemma update_tick_claimed_shape (s : SimICU) (r : SimICU.RandOracle) :
    (update_tick_claimed s r).patients =
      (if s.next_arrival ≤ s.tick then
        s.patients ++
          [{ id := s.next_patient_id, severity := (r.sev_draw : ℚ),
             status := PatientStatus.waiting, time_waiting := 0,
             assigned_nurse := none, assigned_bed := none,
             assigned_ventilator := none, bed_setup_ticks := 0,
             vent_setup_ticks := 0 }]
       else s.patients).map Patient.update ∧
    (update_tick_claimed s r).next_arrival =
      (if s.next_arrival ≤ s.tick then s.tick + r.gap_draw else s.next_arrival) := by
  unfold update_tick_claimed
  dsimp only
  split
  · rename_i hc
    have hfr := update_patients_frame
      ({ (s.add_patient r.sev_draw).1 with
         next_arrival := (s.add_patient r.sev_draw).1.tick + r.gap_draw } : SimICU).patients
      { (s.add_patient r.sev_draw).1 with
        next_arrival := (s.add_patient r.sev_draw).1.tick + r.gap_draw }
    exact ⟨hfr.2.2.2.2.2.2, hfr.2.2.2.2.1⟩
  · have hfr := update_patients_frame s.patients s
    exact ⟨hfr.2.2.2.2.2.2, hfr.2.2.2.2.1⟩

/-- Counterexample to C3: on a fresh engine with `next_arrival = 1`, the real
tick driver increments the tick before the arrival check and therefore
creates a patient on the first tick, while the phase order the spec claims
(arrival against the pre-increment tick, tick incremented last) creates none
and leaves `next_arrival` alone — the two runs differ, so the phases do not
run in the claimed order. -/
theorem C3_counterexample :
    ((SimICU.init 1 1 1 3 (1/10) 0 1).update_tick ⟨50, 5⟩).patients.length = 1 ∧
    (update_tick_claimed (SimICU.init 1 1 1 3 (1/10) 0 1) ⟨50, 5⟩).patients.length = 0 ∧
    ((SimICU.init 1 1 1 3 (1/10) 0 1).update_tick ⟨50, 5⟩).next_arrival ≠
      (update_tick_claimed (SimICU.init 1 1 1 3 (1/10) 0 1) ⟨50, 5⟩).next_arrival := by
  have h1 := update_tick_patients (SimICU.init 1 1 1 3 (1/10) 0 1) ⟨50, 5⟩
  have h2 := update_tick_claimed_shape (SimICU.init 1 1 1 3 (1/10) 0 1) ⟨50, 5⟩
  have hc1 : (SimICU.init 1 1 1 3 (1/10) 0 1).next_arrival ≤
      (SimICU.init 1 1 1 3 (1/10) 0 1).tick + 1 := by decide
  have hc2 : ¬ (SimICU.init 1 1 1 3 (1/10) 0 1).next_arrival ≤
      (SimICU.init 1 1 1 3 (1/10) 0 1).tick := by decide
  refine ⟨?_, ?_, ?_⟩
  · rw [h1.1, if_pos hc1]
    rfl
  · rw [h2.1, if_neg hc2]
    rfl
  · rw [h1.2.1, if_pos hc1, h2.2, if_neg hc2]
    decide

/-- C3 (amended): each env step applies the decision first, validated against
the pre-step patient list — an out-of-range slot is a no-op even if a patient
arrives during the step — and then calls `update_tick`, which increments the
tick counter, then runs the arrival check against the already-incremented
tick (at most one patient), then updates every patient, including the fresh
arrival (its waiting counter advances to 1 within the same call). -/
theorem C3_amended_order (s g : SimICU) (r : SimICU.RandOracle)
    (slot a : Nat) (hslot : g.patients.length ≤ slot) :
    (s.update_tick r).tick = s.tick + 1 ∧
    (s.next_arrival ≤ s.tick + 1 →
      (s.update_tick r).patients.length = s.patients.length + 1 ∧
      ((s.update_tick r).patients.getLast?).map Patient.time_waiting = some 1) ∧
    (¬ s.next_arrival ≤ s.tick + 1 →
      (s.update_tick r).patients.length = s.patients.length) ∧
    SimICUEnv.step_sim g slot a r = g.update_tick r := by
  obtain ⟨hp, -, htick⟩ := update_tick_patients s r
  refine ⟨htick, ?_, ?_, ?_⟩
  · intro hc
    rw [hp, if_pos hc]
    constructor
    · simp
    · rw [List.map_append]
      simp only [List.map_cons, List.map_nil, List.getLast?_concat, Option.map_some']
      have htw : ∀ q : Patient, q.status = PatientStatus.waiting → q.time_waiting = 0 →
          q.update.time_waiting = 1 := by
        intro q hqs hqt
        rw [Patient.update, (Patient.applyTransitions_frame _).2.2.1,
          (show q.tickCare.time_waiting = q.time_waiting + 1 from ?_), hqt]
        obtain ⟨qi, qs, qst, qt, qa, qb, qv, qbs, qvs⟩ := q
        simp only at hqs
        subst hqs
        rfl
      rw [htw _ rfl rfl]
  · intro hc
    rw [hp, if_neg hc]
    simp
  · unfold SimICUEnv.step_sim
    dsimp only
    have hnone : g.patients[slot]? = none := by
      rw [List.getElem?_eq_none_iff]
      exact hslot
    rw [hnone]

/-- Witness for C3 (amended): fresh engine, arrival on the first tick,
out-of-range slot 0 in an empty env. -/
theorem C3_amended_order_witness :
    ((SimICU.init 1 1 1 3 (1/10) 0 1).update_tick ⟨50, 5⟩).tick =
      (SimICU.init 1 1 1 3 (1/10) 0 1).tick + 1 ∧
    ((SimICU.init 1 1 1 3 (1/10) 0 1).update_tick ⟨50, 5⟩).patients.length =
      (SimICU.init 1 1 1 3 (1/10) 0 1).patients.length + 1 ∧
    SimICUEnv.step_sim (SimICU.init 1 1 1 3 (1/10) 0 1) 0 0 ⟨50, 5⟩ =
      (SimICU.init 1 1 1 3 (1/10) 0 1).update_tick ⟨50, 5⟩ := by
  have h := C3_amended_order (SimICU.init 1 1 1 3 (1/10) 0 1)
    (SimICU.init 1 1 1 3 (1/10) 0 1) ⟨50, 5⟩ 0 0 (by decide)
  exact ⟨h.1, (h.2.1 (by decide)).1, h.2.2.2⟩

/-- A bed admission with no free bed or no free nurse (per the caches) fails
without touching the state. -/
lemma assign_bed_starved (s : SimICU) (i : Nat) (p : Patient)
    (hpi : s.patients[i]? = some p) (hw : p.status = PatientStatus.waiting)
    (hres : s.free_beds ≤ 0 ∨ s.free_nurses ≤ 0) :
    s.assign_patient_to_bed i = (s, false) := by
  unfold SimICU.assign_patient_to_bed
  rw [hpi]
  dsimp only
  rw [if_neg (show ¬ p.status ≠ PatientStatus.waiting from fun hc => hc hw),
    if_pos hres]

/-- C2: invalid or resource-starved actions fail and leave the entire
simulation state (pools, counters, patients, flags) unchanged — the action
dispatcher returns exactly `(s, False)`. -/
theorem C2_invalid_actions_unchanged (s : SimICU) (pid a : Nat)
    (hbad :
      s.patients.findIdx? (fun q => q.id == pid) = none ∨
      (∃ i p, s.patients.findIdx? (fun q => q.id == pid) = some i ∧
        s.patients[i]? = some p ∧
        (p.status = PatientStatus.cured ∨ p.status = PatientStatus.lost)) ∨
      (a = 0 ∧ (s.free_beds ≤ 0 ∨ s.free_nurses ≤ 0)) ∨
      (a = 1 ∧ s.free_vents ≤ 0) ∨
      (a = 1 ∧ ∃ i p, s.patients.findIdx? (fun q => q.id == pid) = some i ∧
        s.patients[i]? = some p ∧ p.status = PatientStatus.waiting ∧
        (s.free_beds ≤ 0 ∨ s.free_nurses ≤ 0))) :
    s.perform_action pid a = (s, false) := by
  unfold SimICU.perform_action
  cases hf : s.patients.findIdx? (fun q => q.id == pid) with
  | none => rfl
  | some i =>
    dsimp only
    cases hpi : s.patients[i]? with
    | none => rfl
    | some p =>
      dsimp only
      by_cases hterm : p.status = PatientStatus.cured ∨ p.status = PatientStatus.lost
      · rw [if_pos hterm]
      · rw [if_neg hterm]
        rcases hbad with hbad | hbad | hbad | hbad | hbad
        · rw [hf] at hbad
          simp at hbad
        · obtain ⟨i2, p2, hf2, hpi2, hterm2⟩ := hbad
          rw [hf] at hf2
          injection hf2 with hii
          subst hii
          rw [hpi] at hpi2
          injection hpi2 with hpp
          subst hpp
          exact absurd hterm2 hterm
        · obtain ⟨ha, hres⟩ := hbad
          subst ha
          rw [if_pos rfl, if_neg (by omega : ¬(0 < s.free_beds ∧ 0 < s.free_nurses))]
        · obtain ⟨ha, hres⟩ := hbad
          subst ha
          rw [if_neg (by decide : ¬(1 = 0)), if_pos rfl,
            if_neg (by omega : ¬(0 < s.free_vents))]
        · obtain ⟨ha, i2, p2, hf2, hpi2, hwait, hres⟩ := hbad
          subst ha
          rw [hf] at hf2
          injection hf2 with hii
          subst hii
          rw [hpi] at hpi2
          injection hpi2 with hpp
          subst hpp
          rw [if_neg (by decide : ¬(1 = 0)), if_pos rfl]
          by_cases hfv : 0 < s.free_vents
          · rw [if_pos hfv, if_neg (by rw [hwait]; decide)]
            unfold SimICU.assign_patient_to_ventilator
            rw [hpi]
            dsimp only
            rw [if_neg (show ¬(p.status ≠ PatientStatus.waiting ∧
                  p.status ≠ PatientStatus.in_bed) from fun hcon => hcon.1 hwait),
              if_neg (by omega : ¬ s.free_vents ≤ 0)]
            cases hgv : s.get_available_ventilator with
            | none => rfl
            | some v =>
              dsimp only
              rw [if_pos hwait, assign_bed_starved s i p hpi hwait hres]
              rfl
          · rw [if_neg hfv]

/-- Witness for C2: a whole-state no-op on a fresh engine with no patients
(the target patient does not exist). -/
theorem C2_invalid_actions_unchanged_witness :
    (SimICU.init 1 1 1 3 (1/10) 0 5).perform_action 0 0 =
      (SimICU.init 1 1 1 3 (1/10) 0 5, false) :=
  C2_invalid_actions_unchanged (SimICU.init 1 1 1 3 (1/10) 0 5) 0 0
    (Or.inl (by rfl))

/-- Counterexample to C6: `perform_action` validates the patient before
dispatching on the action type, so NO_OP on a nonexistent patient (fresh
engine, empty patient list) returns failure, not success. -/
theorem C6_counterexample :
    ((SimICU.init 1 1 1 3 (1/10) 0 5).perform_action 0 2).2 = false := rfl

/-- C6 (amended): NO_OP never changes the simulation state, and it reports
success exactly when the target patient exists and is not terminal. -/
theorem C6_noop (s : SimICU) (pid : Nat) :
    (s.perform_action pid 2).1 = s ∧
    ((s.perform_action pid 2).2 = true ↔
      ∃ i p, s.patients.findIdx? (fun q => q.id == pid) = some i ∧
        s.patients[i]? = some p ∧
        p.status ≠ PatientStatus.cured ∧ p.status ≠ PatientStatus.lost) := by
  unfold SimICU.perform_action
  cases hf : s.patients.findIdx? (fun q => q.id == pid) with
  | none =>
    refine ⟨rfl, ?_⟩
    simp
  | some i =>
    dsimp only
    cases hpi : s.patients[i]? with
    | none =>
      refine ⟨rfl, ?_⟩
      dsimp only
      constructor
      · intro h
        simp at h
      · rintro ⟨i2, p2, hf2, hpi2, -⟩
        injection hf2 with hii
        subst hii
        rw [hpi] at hpi2
        simp at hpi2
    | some p =>
      dsimp only
      by_cases hterm : p.status = PatientStatus.cured ∨ p.status = PatientStatus.lost
      · rw [if_pos hterm]
        refine ⟨rfl, ?_⟩
        constructor
        · intro h
          simp at h
        · rintro ⟨i2, p2, hf2, hpi2, hc, hl⟩
          injection hf2 with hii
          subst hii
          rw [hpi] at hpi2
          injection hpi2 with hpp
          subst hpp
          rcases hterm with hterm | hterm
          · exact (hc hterm).elim
          · exact (hl hterm).elim
      · rw [if_neg hterm, if_neg (by decide : ¬(2 = 0)),
          if_neg (by decide : ¬(2 = 1)), if_pos rfl]
        refine ⟨rfl, ?_⟩
        constructor
        · intro _
          exact ⟨i, p, rfl, hpi, fun hc => hterm (Or.inl hc),
            fun hl => hterm (Or.inr hl)⟩
        · intro _
          rfl

/-- C7: escalating an IN_BED patient to a ventilator, when the free-ventilator
cache is positive, reserves exactly one additional ventilator, leaves the
bed/nurse pools and caches (and the patient's bed/nurse back-references)
untouched, moves the patient to ON_VENTILATOR with the 5-tick setup
countdown, and raises the setup-delay flag. -/
theorem C7_escalation (s : SimICU) (pid i : Nat) (p : Patient)
    (hinv : s.Inv)
    (hf : s.patients.findIdx? (fun q => q.id == pid) = some i)
    (hpi : s.patients[i]? = some p)
    (hbed : p.status = PatientStatus.in_bed)
    (hfv : 0 < s.free_vents) :
    ∃ v, s.get_available_ventilator = some v ∧
      s.ventilators[v]? = some true ∧
      (s.perform_action pid 1).2 = true ∧
      (s.perform_action pid 1).1.free_vents = s.free_vents - 1 ∧
      (countAvail (s.perform_action pid 1).1.ventilators : ℤ) =
        (countAvail s.ventilators : ℤ) - 1 ∧
      (s.perform_action pid 1).1.free_beds = s.free_beds ∧
      (s.perform_action pid 1).1.free_nurses = s.free_nurses ∧
      (s.perform_action pid 1).1.beds = s.beds ∧
      (s.perform_action pid 1).1.nurses = s.nurses ∧
      (s.perform_action pid 1).1.patients[i]? = some
        { p with assigned_ventilator := some v,
                 status := PatientStatus.on_ventilator, vent_setup_ticks := 5 } ∧
      (s.perform_action pid 1).1.just_incurred_setup_delay = true := by
  obtain ⟨-, -, -, -, -, hfveq, -, -⟩ := hinv
  have hpos : 0 < countAvail s.ventilators := by omega
  obtain ⟨v, hgv⟩ := findAvail_of_pos s.ventilators hpos
  have hv : s.ventilators[v]? = some true := findAvail_spec _ _ hgv
  have hilt : i < s.patients.length := lt_of_get? hpi
  refine ⟨v, hgv, hv, ?_⟩
  unfold SimICU.perform_action
  rw [hf]
  dsimp only
  rw [hpi]
  dsimp only
  rw [if_neg (show ¬(p.status = PatientStatus.cured ∨ p.status = PatientStatus.lost) by
        rw [hbed]; decide),
    if_neg (show ¬(1 = 0) by decide), if_pos rfl, if_pos hfv, if_pos hbed]
  unfold SimICU.assign_patient_to_ventilator SimICU.get_available_ventilator
  dsimp only
  rw [hpi]
  dsimp only
  rw [if_neg (show ¬(p.status ≠ PatientStatus.waiting ∧
        p.status ≠ PatientStatus.in_bed) from fun hc => hc.2 hbed),
    if_neg (show ¬ s.free_vents ≤ 0 by omega), hgv]
  dsimp only
  rw [if_neg (show ¬ p.status = PatientStatus.waiting by rw [hbed]; decide)]
  unfold SimICU.vent_reserve
  dsimp only
  rw [hpi]
  dsimp only
  refine ⟨rfl, rfl, ?_, rfl, rfl, rfl, rfl, ?_, rfl⟩
  · have hcv := countAvail_set s.ventilators v false true hv
    simp at hcv
    omega
  · rw [getSet_self _ _ _ hilt]

/-- A handcrafted invariant-satisfying state for the C7 witness: one bed and
one nurse reserved by the single IN_BED patient, one free ventilator. -/
def c7State : SimICU :=
  { num_nurses := 1
    num_beds := 1
    num_ventilators := 1
    nurses := [false]
    beds := [false]
    ventilators := [true]
    patients := [{ id := 0, severity := (50 : ℚ), status := PatientStatus.in_bed,
                   time_waiting := 2, assigned_nurse := some 0, assigned_bed := some 0,
                   assigned_ventilator := none, bed_setup_ticks := 3,
                   vent_setup_ticks := 0 }]
    next_patient_id := 1
    tick := 3
    patients_saved := 0
    patients_lost := 0
    total_wait_time := 2
    max_patients_on_arrival := 3
    arrival_rate := 1/10
    next_arrival := 100
    just_saved_a_patient := false
    just_lost_a_patient := false
    just_incurred_setup_delay := false
    free_beds := 0
    free_nurses := 0
    free_vents := 1 }

/-- Witness for C7 on the handcrafted state. -/
theorem C7_escalation_witness :
    ∃ v, c7State.get_available_ventilator = some v ∧
      c7State.ventilators[v]? = some true ∧
      (c7State.perform_action 0 1).2 = true ∧
      (c7State.perform_action 0 1).1.free_vents = c7State.free_vents - 1 ∧
      (countAvail (c7State.perform_action 0 1).1.ventilators : ℤ) =
        (countAvail c7State.ventilators : ℤ) - 1 ∧
      (c7State.perform_action 0 1).1.free_beds = c7State.free_beds ∧
      (c7State.perform_action 0 1).1.free_nurses = c7State.free_nurses ∧
      (c7State.perform_action 0 1).1.beds = c7State.beds ∧
      (c7State.perform_action 0 1).1.nurses = c7State.nurses ∧
      (c7State.perform_action 0 1).1.patients[0]? = some
        { id := 0, severity := (50 : ℚ), status := PatientStatus.on_ventilator,
          time_waiting := 2, assigned_nurse := some 0, assigned_bed := some 0,
          assigned_ventilator := some v, bed_setup_ticks := 3,
          vent_setup_ticks := 5 } ∧
      (c7State.perform_action 0 1).1.just_incurred_setup_delay = true :=
  C7_escalation c7State 0 0
    { id := 0, severity := (50 : ℚ), status := PatientStatus.in_bed,
      time_waiting := 2, assigned_nurse := some 0, assigned_bed := some 0,
      assigned_ventilator := none, bed_setup_ticks := 3, vent_setup_ticks := 0 }
    (by refine ⟨rfl, rfl, rfl, rfl, rfl, rfl, ?_, ?_⟩
        · intro q hq
          rcases List.mem_cons.mp hq with rfl | hq
          · exact ⟨rfl, rfl, rfl⟩
          · simp at hq
        · exact List.pairwise_singleton _ _)
    rfl rfl rfl (by decide)

/-- All patients of a state are severity/status well-formed. -/
def SevOk (s : SimICU) : Prop := ∀ p ∈ s.patients, SevP p

lemma sevOk_set {ps : List Patient} {i : Nat} {p p' : Patient}
    (h : ∀ q ∈ ps, SevP q) (hpi : ps[i]? = some p)
    (hsev : p'.severity = p.severity)
    (hcu : p'.status ≠ PatientStatus.cured) (hlo : p'.status ≠ PatientStatus.lost) :
    ∀ q ∈ ps.set i p', SevP q := by
  intro q hq
  rcases memSet hq with hq | rfl
  · exact h q hq
  · have hp := h p (get?_mem hpi)
    exact ⟨by rw [hsev]; exact hp.1, by rw [hsev]; exact hp.2.1,
      fun hc => absurd hc hcu, fun hl => absurd hl hlo⟩

lemma sevOk_assign_bed (s : SimICU) (i : Nat) (h : SevOk s) :
    SevOk (s.assign_patient_to_bed i).1 := by
  unfold SimICU.assign_patient_to_bed
  split
  all_goals try exact h
  split
  all_goals try exact h
  split
  all_goals try exact h
  split
  all_goals try exact h
  rename_i oP p hpi hst hcnt o1 o2 b n hgb hgn
  exact sevOk_set h hpi rfl (fun hh => nomatch hh) (fun hh => nomatch hh)

lemma sevOk_assign_specific (s : SimICU) (i : Nat) (b n : Option Nat) (h : SevOk s) :
    SevOk (s.assign_patient_to_specific_bed i b n).1 := by
  unfold SimICU.assign_patient_to_specific_bed
  split
  all_goals try exact h
  split
  all_goals try exact h
  split
  all_goals try exact h
  split
  all_goals try exact h
  split
  all_goals try exact h
  split
  all_goals try exact h
  split
  all_goals try exact h
  rename_i oP p hpi hst oB bb hbt hcnt oN nn hn hnt
  exact sevOk_set h hpi rfl (fun hh => nomatch hh) (fun hh => nomatch hh)

lemma sevOk_vent_reserve (t : SimICU) (i v : Nat) (h : SevOk t) :
    SevOk (t.vent_reserve i v).1 := by
  unfold SimICU.vent_reserve
  split
  · exact h
  · rename_i p1 hpi
    exact sevOk_set h hpi rfl (fun hh => nomatch hh) (fun hh => nomatch hh)

lemma sevOk_assign_vent (s : SimICU) (i : Nat) (h : SevOk s) :
    SevOk (s.assign_patient_to_ventilator i).1 := by
  unfold SimICU.assign_patient_to_ventilator
  split
  all_goals try exact h
  split
  all_goals try exact h
  split
  all_goals try exact h
  split
  all_goals try exact h
  split
  · split
    · exact sevOk_assign_bed s i h
    · exact sevOk_vent_reserve _ i _ (sevOk_assign_bed s i h)
  · exact sevOk_vent_reserve s i _ h

lemma sevOk_perform_action (s : SimICU) (pid a : Nat) (h : SevOk s) :
    SevOk (s.perform_action pid a).1 := by
  unfold SimICU.perform_action
  split
  all_goals try exact h
  split
  all_goals try exact h
  split
  all_goals try exact h
  split
  · split
    · exact sevOk_assign_bed s _ h
    · exact h
  · split
    · split
      · split
        · exact sevOk_assign_vent _ _ h
        · exact sevOk_assign_vent _ _ h
      · exact h
    · split
      · exact h
      · exact h

lemma sevOk_update_tick (s : SimICU) (r : SimICU.RandOracle)
    (h40 : 40 ≤ r.sev_draw) (h60 : r.sev_draw ≤ 60) (h : SevOk s) :
    SevOk (s.update_tick r) := by
  intro q hq
  rw [(update_tick_patients s r).1] at hq
  rcases List.mem_map.mp hq with ⟨q0, hq0, rfl⟩
  apply Patient.update_sevP
  split at hq0
  · rcases List.mem_append.mp hq0 with hq0 | hq0
    · exact h q0 hq0
    · rcases List.mem_cons.mp hq0 with rfl | hq0
      · refine ⟨?_, ?_, by intro hc; simp at hc, by intro hl; simp at hl⟩
        · show (0 : ℚ) ≤ (r.sev_draw : ℚ)
          have : (0 : ℤ) ≤ r.sev_draw := by omega
          exact_mod_cast this
        · show (r.sev_draw : ℚ) ≤ 100
          have : r.sev_draw ≤ (100 : ℤ) := by omega
          exact_mod_cast this
      · simp at hq0
  · exact h q0 hq0

/-- Every reachable state satisfies the severity invariant. -/
lemma reachable_sevOk {s : SimICU} (h : Reachable s) : SevOk s := by
  induction h with
  | init_state nn nb nv mpa ar g1 g2 =>
    intro q hq
    simp [SimICU.init, SimICU.reset] at hq
  | reset_op g _ ih =>
    intro q hq
    simp [SimICU.reset] at hq
  | bed_op i _ ih => exact sevOk_assign_bed _ i ih
  | specific_op i b n _ ih => exact sevOk_assign_specific _ i b n ih
  | vent_op i _ ih => exact sevOk_assign_vent _ i ih
  | act_op pid a _ ih => exact sevOk_perform_action _ pid a ih
  | tick_op r h40 h60 _ ih => exact sevOk_update_tick _ r h40 h60 ih

/-- C4: along every reachable run, every patient's condition stays in
[0,100], and a terminal (CURED or LOST) patient is entirely frozen: the
per-tick update leaves it unchanged, so neither its status nor its condition
is ever modified again. -/
theorem C4_condition_clamped (s : SimICU) (h : Reachable s) :
    (∀ p ∈ s.patients, 0 ≤ p.severity ∧ p.severity ≤ 100) ∧
    (∀ p ∈ s.patients,
      (p.status = PatientStatus.cured ∨ p.status = PatientStatus.lost) →
      p.update = p) := by
  have hsev : SevOk s := reachable_sevOk h
  constructor
  · intro p hp
    exact ⟨(hsev p hp).1, (hsev p hp).2.1⟩
  · intro p hp hterm
    rcases hterm with hc | hl
    · exact Patient.update_cured_fix p hc (by have := (hsev p hp).2.2.1 hc; linarith)
    · exact Patient.update_lost_fix p hl (by have := (hsev p hp).2.2.2 hl; linarith)

/-- Witness for C4 on a concrete reachable state (one arrival, one bed
admission). -/
theorem C4_condition_clamped_witness :
    (∀ p ∈ witnessState.patients, 0 ≤ p.severity ∧ p.severity ≤ 100) ∧
    (∀ p ∈ witnessState.patients,
      (p.status = PatientStatus.cured ∨ p.status = PatientStatus.lost) →
      p.update = p) :=
  C4_condition_clamped witnessState
    (Reachable.act_op 0 0
      (Reachable.tick_op ⟨50, 5⟩ (by decide) (by decide)
        (Reachable.init_state 2 2 1 3 (1/10) 0 1)))

/-- Patient slots and ids agree: the ids of the patient list are exactly
`0, 1, 2, ...` and the id counter equals the list length. -/
def IdsOk (s : SimICU) : Prop :=
  s.patients.map Patient.id = List.range s.patients.length ∧
  s.next_patient_id = s.patients.length

lemma set_get_self {α : Type} {l : List α} {i : Nat} {a : α}
    (h : l[i]? = some a) : l.set i a = l := by
  induction l generalizing i with
  | nil => rfl
  | cons x xs ih =>
    cases i with
    | zero => simp_all
    | succ j =>
      simp only [List.set_cons_succ]
      rw [ih (by simpa using h)]

lemma idsOk_assign_bed (s : SimICU) (i : Nat) (h : IdsOk s) :
    IdsOk (s.assign_patient_to_bed i).1 := by
  unfold SimICU.assign_patient_to_bed
  split
  all_goals try exact h
  split
  all_goals try exact h
  split
  all_goals try exact h
  split
  all_goals try exact h
  rename_i oP p hpi hst hcnt o1 o2 b n hgb hgn
  refine ⟨?_, ?_⟩
  · show (s.patients.set i _).map Patient.id = List.range (s.patients.set i _).length
    rw [mapSet, List.length_set, set_get_self (by rw [List.getElem?_map, hpi]; rfl)]
    exact h.1
  · show s.next_patient_id = (s.patients.set i _).length
    rw [List.length_set]
    exact h.2

lemma idsOk_assign_specific (s : SimICU) (i : Nat) (b n : Option Nat) (h : IdsOk s) :
    IdsOk (s.assign_patient_to_specific_bed i b n).1 := by
  unfold SimICU.assign_patient_to_specific_bed
  split
  all_goals try exact h
  split
  all_goals try exact h
  split
  all_goals try exact h
  split
  all_goals try exact h
  split
  all_goals try exact h
  split
  all_goals try exact h
  split
  all_goals try exact h
  rename_i oP p hpi hst oB bb hbt hcnt oN nn hn hnt
  refine ⟨?_, ?_⟩
  · show (s.patients.set i _).map Patient.id = List.range (s.patients.set i _).length
    rw [mapSet, List.length_set, set_get_self (by rw [List.getElem?_map, hpi]; rfl)]
    exact h.1
  · show s.next_patient_id = (s.patients.set i _).length
    rw [List.length_set]
    exact h.2

lemma idsOk_vent_reserve (t : SimICU) (i v : Nat) (h : IdsOk t) :
    IdsOk (t.vent_reserve i v).1 := by
  unfold SimICU.vent_reserve
  split
  · exact h
  · rename_i p1 hpi
    refine ⟨?_, ?_⟩
    · show (t.patients.set i _).map Patient.id = List.range (t.patients.set i _).length
      rw [mapSet, List.length_set, set_get_self (by rw [List.getElem?_map, hpi]; rfl)]
      exact h.1
    · show t.next_patient_id = (t.patients.set i _).length
      rw [List.length_set]
      exact h.2

lemma idsOk_assign_vent (s : SimICU) (i : Nat) (h : IdsOk s) :
    IdsOk (s.assign_patient_to_ventilator i).1 := by
  unfold SimICU.assign_patient_to_ventilator
  split
  all_goals try exact h
  split
  all_goals try exact h
  split
  all_goals try exact h
  split
  all_goals try exact h
  split
  · split
    · exact idsOk_assign_bed s i h
    · exact idsOk_vent_reserve _ i _ (idsOk_assign_bed s i h)
  · exact idsOk_vent_reserve s i _ h

lemma idsOk_perform_action (s : SimICU) (pid a : Nat) (h : IdsOk s) :
    IdsOk (s.perform_action pid a).1 := by
  unfold SimICU.perform_action
  split
  all_goals try exact h
  split
  all_goals try exact h
  split
  all_goals try exact h
  split
  · split
    · exact idsOk_assign_bed s _ h
    · exact h
  · split
    · split
      · split
        · exact idsOk_assign_vent _ _ h
        · exact idsOk_assign_vent _ _ h
      · exact h
    · split
      · exact h
      · exact h

lemma map_update_id (l : List Patient) :
    (l.map Patient.update).map Patient.id = l.map Patient.id := by
  induction l with
  | nil => rfl
  | cons p ps ih =>
    simp only [List.map_cons, ih, Patient.update_id]

lemma idsOk_update_tick (s : SimICU) (r : SimICU.RandOracle) (h : IdsOk s) :
    IdsOk (s.update_tick r) := by
  obtain ⟨hmap, hnext⟩ := h
  have hp := (update_tick_patients s r).1
  have hnx : (s.update_tick r).next_patient_id =
      (if s.next_arrival ≤ s.tick + 1 then s.next_patient_id + 1
       else s.next_patient_id) := by
    unfold SimICU.update_tick
    dsimp only
    split
    · exact (update_patients_frame _ _).2.2.2.2.2.1
    · exact (update_patients_frame _ _).2.2.2.2.2.1
  constructor
  · rw [hp, map_update_id]
    split
    · rename_i hc
      rw [List.map_append, List.length_map, List.length_append]
      simp only [List.map_cons, List.map_nil, List.length_cons, List.length_nil]
      rw [hmap, ← hnext]
      exact (List.range_succ _).symm
    · rw [List.length_map]
      exact hmap
  · rw [hp, hnx, List.length_map]
    split
    · rw [List.length_append, hnext]
      rfl
    · exact hnext

/-- C10: between resets the patient list is append-only with sequential ids,
so the slot index used by the environment always equals the patient's id, and
the id counter equals the number of patients ever created. -/
theorem C10_slot_ids (s : SimICU) (h : Reachable s) :
    s.next_patient_id = s.patients.length ∧
    ∀ (i : Nat) (p : Patient), s.patients[i]? = some p → p.id = i := by
  have hids : IdsOk s := by
    induction h with
    | init_state nn nb nv mpa ar g1 g2 => exact ⟨rfl, rfl⟩
    | reset_op g _ ih => exact ⟨rfl, rfl⟩
    | bed_op i _ ih => exact idsOk_assign_bed _ i ih
    | specific_op i b n _ ih => exact idsOk_assign_specific _ i b n ih
    | vent_op i _ ih => exact idsOk_assign_vent _ i ih
    | act_op pid a _ ih => exact idsOk_perform_action _ pid a ih
    | tick_op r h40 h60 _ ih => exact idsOk_update_tick _ r ih
  refine ⟨hids.2, ?_⟩
  intro i p hpi
  have h1 : (s.patients.map Patient.id)[i]? = some p.id := by
    rw [List.getElem?_map, hpi]
    rfl
  rw [hids.1, List.getElem?_range (by
    have := lt_of_get? hpi
    simpa using this)] at h1
  injection h1 with h1
  exact h1.symm

/-- Witness for C10 on a concrete reachable state (one arrival, one bed
admission). -/
theorem C10_slot_ids_witness :
    witnessState.next_patient_id = witnessState.patients.length ∧
    ∀ (i : Nat) (p : Patient), witnessState.patients[i]? = some p → p.id = i :=
  C10_slot_ids witnessState
    (Reachable.act_op 0 0
      (Reachable.tick_op ⟨50, 5⟩ (by decide) (by decide)
        (Reachable.init_state 2 2 1 3 (1/10) 0 1)))

/-! ## The waiting-time bound: no patient has waited longer than the clock -/

lemma Patient.applyTransitions_tw (p : Patient) :
    p.applyTransitions.time_waiting = p.time_waiting :=
  (Patient.applyTransitions_frame p).2.2.1

/-- One per-patient update advances the waiting counter by at most one. -/
lemma Patient.update_tw_le (p : Patient) :
    p.update.time_waiting ≤ p.time_waiting + 1 := by
  unfold Patient.update
  rw [Patient.applyTransitions_tw]
  obtain ⟨i, sev, st, tw, an, ab, av, bs, vs⟩ := p
  cases st <;> simp only [Patient.tickCare] <;> first
    | simp
    | (split <;> simp)

/-- No patient has been waiting longer than the elapsed clock. -/
def TwOk (s : SimICU) : Prop := ∀ p ∈ s.patients, p.time_waiting ≤ s.tick

lemma twOk_set {ps : List Patient} {i : Nat} {p p' : Patient} {t : Nat}
    (h : ∀ q ∈ ps, q.time_waiting ≤ t) (hpi : ps[i]? = some p)
    (htw : p'.time_waiting = p.time_waiting) :
    ∀ q ∈ ps.set i p', q.time_waiting ≤ t := by
  intro q hq
  rcases memSet hq with hq | rfl
  · exact h q hq
  · rw [htw]
    exact h p (get?_mem hpi)

lemma twOk_assign_bed (s : SimICU) (i : Nat) (h : TwOk s) :
    TwOk (s.assign_patient_to_bed i).1 := by
  unfold SimICU.assign_patient_to_bed
  split
  all_goals try exact h
  split
  all_goals try exact h
  split
  all_goals try exact h
  split
  all_goals try exact h
  rename_i oP p hpi hst hcnt o1 o2 b n hgb hgn
  exact twOk_set h hpi rfl

lemma twOk_assign_specific (s : SimICU) (i : Nat) (b n : Option Nat) (h : TwOk s) :
    TwOk (s.assign_patient_to_specific_bed i b n).1 := by
  unfold SimICU.assign_patient_to_specific_bed
  split
  all_goals try exact h
  split
  all_goals try exact h
  split
  all_goals try exact h
  split
  all_goals try exact h
  split
  all_goals try exact h
  split
  all_goals try exact h
  split
  all_goals try exact h
  rename_i oP p hpi hst oB bb hbt hcnt oN nn hn hnt
  exact twOk_set h hpi rfl

lemma twOk_vent_reserve (t : SimICU) (i v : Nat) (h : TwOk t) :
    TwOk (t.vent_reserve i v).1 := by
  unfold SimICU.vent_reserve
  split
  · exact h
  · rename_i p1 hpi
    exact twOk_set h hpi rfl

lemma twOk_assign_vent (s : SimICU) (i : Nat) (h : TwOk s) :
    TwOk (s.assign_patient_to_ventilator i).1 := by
  unfold SimICU.assign_patient_to_ventilator
  split
  all_goals try exact h
  split
  all_goals try exact h
  split
  all_goals try exact h
  split
  all_goals try exact h
  split
  · split
    · exact twOk_assign_bed s i h
    · exact twOk_vent_reserve _ i _ (twOk_assign_bed s i h)
  · exact twOk_vent_reserve s i _ h

lemma twOk_perform_action (s : SimICU) (pid a : Nat) (h : TwOk s) :
    TwOk (s.perform_action pid a).1 := by
  unfold SimICU.perform_action
  split
  all_goals try exact h
  split
  all_goals try exact h
  split
  all_goals try exact h
  split
  · split
    · exact twOk_assign_bed s _ h
    · exact h
  · split
    · split
      · split
        · exact twOk_assign_vent _ _ h
        · exact twOk_assign_vent _ _ h
      · exact h
    · split
      · exact h
      · exact h

lemma twOk_update_tick (s : SimICU) (r : SimICU.RandOracle) (h : TwOk s) :
    TwOk (s.update_tick r) := by
  intro q hq
  rw [(update_tick_patients s r).2.2]
  rw [(update_tick_patients s r).1] at hq
  rcases List.mem_map.mp hq with ⟨q0, hq0, rfl⟩
  have hle := Patient.update_tw_le q0
  split at hq0
  · rcases List.mem_append.mp hq0 with hq0 | hq0
    · have := h q0 hq0
      omega
    · rcases List.mem_cons.mp hq0 with rfl | hq0
      · exact le_trans hle (Nat.succ_le_succ (Nat.zero_le s.tick))
      · simp at hq0
  · have := h q0 hq0
    omega

/-- Every reachable state satisfies the waiting-time bound. -/
lemma reachable_twOk {s : SimICU} (h : Reachable s) : TwOk s := by
  induction h with
  | init_state nn nb nv mpa ar g1 g2 =>
    intro q hq
    simp [SimICU.init, SimICU.reset] at hq
  | reset_op g _ ih =>
    intro q hq
    simp [SimICU.reset] at hq
  | bed_op i _ ih => exact twOk_assign_bed _ i ih
  | specific_op i b n _ ih => exact twOk_assign_specific _ i b n ih
  | vent_op i _ ih => exact twOk_assign_vent _ i ih
  | act_op pid a _ ih => exact twOk_perform_action _ pid a ih
  | tick_op r h40 h60 _ ih => exact twOk_update_tick _ r ih

/-! ## The observation encoder (`SimICUEnv._get_state`) -/

/-- Modelled from the spec: the extended-variant patient archetypes
(respiratory / cardiac / trauma) that the environment's `_encode_type`
reads off the patient; the core engine in `src/` does not define them. -/
inductive PatientType where
  | respiratory
  | cardiac
  | trauma
deriving DecidableEq, Repr

namespace SimICUEnv

/-- `SimICUEnv._encode_status`, restricted to the five statuses the core
engine can produce (the Python map's extended-variant PENDING_DISCHARGE
entry, also encoded 3.0, has no counterpart in the core engine). -/
def encode_status : PatientStatus → ℚ
  | .waiting => 0
  | .in_bed => 1
  | .on_ventilator => 2
  | .cured => 3
  | .lost => 4

/-- `SimICUEnv._encode_type`. -/
def encode_type : PatientType → ℚ
  | .respiratory => 0
  | .cardiac => 1/2
  | .trauma => 1

/-- One four-entry patient slot of the observation vector (the loop body of
`_get_state`): a live slot holds `[severity/100, time_waiting/max_ticks,
status_code/4, type_code]`, an empty slot the fixed padding `[0, 0, 1, 0]`.
The archetype of the patient in slot `i` — a field of the extended-variant
patient that the core engine lacks — is supplied by the oracle `ptype`. -/
def state_slot (game : SimICU) (ptype : Nat → PatientType)
    (max_ticks i : Nat) : List ℚ :=
  match game.patients[i]? with
  | some p => [p.severity / 100, (p.time_waiting : ℚ) / (max_ticks : ℚ),
               encode_status p.status / 4, encode_type (ptype i)]
  | none => [0, 0, 1, 0]

/-- `SimICUEnv._get_state`: the per-slot blocks of the first `max_patients`
slots followed by the five global entries — the three free-resource
fractions with their zero-pool guards, the step-down fraction (`0/1`: the
`getattr` fallbacks fire because the core engine has no step-down pool) and
the normalized tick. -/
def get_state (game : SimICU) (ptype : Nat → PatientType)
    (max_patients max_ticks : Nat) : List ℚ :=
  (List.range max_patients).flatMap (state_slot game ptype max_ticks) ++
  [ (if 0 < game.num_beds then (game.free_beds : ℚ) / (game.num_beds : ℚ) else 0),
    (if 0 < game.num_nurses then (game.free_nurses : ℚ) / (game.num_nurses : ℚ) else 0),
    (if 0 < game.num_ventilators then
       (game.free_vents : ℚ) / (game.num_ventilators : ℚ) else 0),
    (0 : ℚ) / 1,
    (game.tick : ℚ) / (max_ticks : ℚ) ]

lemma state_slot_length (game : SimICU) (ptype : Nat → PatientType)
    (mt i : Nat) : (state_slot game ptype mt i).length = 4 := by
  unfold state_slot
  split <;> rfl

lemma get_state_length (game : SimICU) (ptype : Nat → PatientType)
    (mp mt : Nat) :
    (get_state game ptype mp mt).length = 4 * mp + 5 := by
  unfold get_state
  rw [List.length_append]
  have h : ∀ n : Nat,
      ((List.range n).flatMap (state_slot game ptype mt)).length = 4 * n := by
    intro n
    induction n with
    | zero => rfl
    | succ k ih =>
      rw [List.range_succ, List.flatMap_append, List.length_append, ih]
      have h4 : (([k] : List Nat).flatMap (state_slot game ptype mt)).length = 4 := by
        rw [List.flatMap_cons, List.flatMap_nil, List.append_nil]
        exact state_slot_length game ptype mt k
      rw [h4]
      omega
  rw [h]
  rfl

lemma encode_status_bounds (st : PatientStatus) :
    0 ≤ encode_status st ∧ encode_status st ≤ 4 := by
  cases st <;> exact ⟨by norm_num [encode_status], by norm_num [encode_status]⟩

lemma encode_type_bounds (t : PatientType) :
    0 ≤ encode_type t ∧ encode_type t ≤ 1 := by
  cases t <;> exact ⟨by norm_num [encode_type], by norm_num [encode_type]⟩

end SimICUEnv

/-- C9: on every reachable engine state whose clock has not passed
`max_ticks` (episodes end at `max_ticks`), the observation encoder returns
a vector of exactly `max_patients * 4 + 5` entries, every one of which lies
in [0,1]: per live slot the condition / 100, the wait time / `max_ticks`,
the status code / 4 and the archetype code; the fixed `[0, 0, 1, 0]`
padding for empty slots; and at the tail the guarded free-resource
fractions over the fixed pool sizes, the step-down fraction and
tick / `max_ticks`.  The wait-time entries are in bounds because no
patient waits longer than the clock. -/
theorem C9_observation_bounds (s : SimICU) (ptype : Nat → PatientType)
    (max_patients max_ticks : Nat) (h : Reachable s)
    (hmt : 0 < max_ticks) (htk : s.tick ≤ max_ticks) :
    (SimICUEnv.get_state s ptype max_patients max_ticks).length =
      max_patients * 4 + 5 ∧
    ∀ x ∈ SimICUEnv.get_state s ptype max_patients max_ticks,
      0 ≤ x ∧ x ≤ 1 := by
  have hsev := reachable_sevOk h
  have htw := reachable_twOk h
  obtain ⟨hbl, hnl, hvl, hfb, hfn, hfv, -, -⟩ := reachable_inv h
  have hmtQ : (0 : ℚ) < (max_ticks : ℚ) := by exact_mod_cast hmt
  constructor
  · rw [SimICUEnv.get_state_length]
    omega
  · intro x hx
    unfold SimICUEnv.get_state at hx
    rcases List.mem_append.mp hx with hx | hx
    · rcases List.mem_flatMap.mp hx with ⟨i, hi, hxi⟩
      unfold SimICUEnv.state_slot at hxi
      split at hxi
      · rename_i p heq
        have hp := hsev p (get?_mem heq)
        have hptw : p.time_waiting ≤ max_ticks := le_trans (htw p (get?_mem heq)) htk
        simp only [List.mem_cons, List.not_mem_nil, or_false] at hxi
        rcases hxi with rfl | rfl | rfl | rfl
        · exact ⟨div_nonneg hp.1 (by norm_num),
            (div_le_one (by norm_num)).mpr hp.2.1⟩
        · refine ⟨div_nonneg (Nat.cast_nonneg _) (Nat.cast_nonneg _), ?_⟩
          exact (div_le_one hmtQ).mpr (by exact_mod_cast hptw)
        · have hb := SimICUEnv.encode_status_bounds p.status
          exact ⟨div_nonneg hb.1 (by norm_num),
            (div_le_one (by norm_num)).mpr hb.2⟩
        · exact SimICUEnv.encode_type_bounds (ptype i)
      · simp only [List.mem_cons, List.not_mem_nil, or_false] at hxi
        rcases hxi with rfl | rfl | rfl | rfl <;> norm_num
    · simp only [List.mem_cons, List.not_mem_nil, or_false] at hx
      have hcb : (0 : ℤ) ≤ s.free_beds ∧ s.free_beds ≤ (s.num_beds : ℤ) := by
        rw [hfb]
        constructor
        · exact_mod_cast Nat.zero_le _
        · exact_mod_cast hbl ▸ countAvail_le s.beds
      have hcn : (0 : ℤ) ≤ s.free_nurses ∧ s.free_nurses ≤ (s.num_nurses : ℤ) := by
        rw [hfn]
        constructor
        · exact_mod_cast Nat.zero_le _
        · exact_mod_cast hnl ▸ countAvail_le s.nurses
      have hcv : (0 : ℤ) ≤ s.free_vents ∧
          s.free_vents ≤ (s.num_ventilators : ℤ) := by
        rw [hfv]
        constructor
        · exact_mod_cast Nat.zero_le _
        · exact_mod_cast hvl ▸ countAvail_le s.ventilators
      rcases hx with rfl | rfl | rfl | rfl | rfl
      · split
        · rename_i hpos
          refine ⟨div_nonneg (by exact_mod_cast hcb.1) (Nat.cast_nonneg _), ?_⟩
          exact (div_le_one (by exact_mod_cast hpos)).mpr (by exact_mod_cast hcb.2)
        · norm_num
      · split
        · rename_i hpos
          refine ⟨div_nonneg (by exact_mod_cast hcn.1) (Nat.cast_nonneg _), ?_⟩
          exact (div_le_one (by exact_mod_cast hpos)).mpr (by exact_mod_cast hcn.2)
        · norm_num
      · split
        · rename_i hpos
          refine ⟨div_nonneg (by exact_mod_cast hcv.1) (Nat.cast_nonneg _), ?_⟩
          exact (div_le_one (by exact_mod_cast hpos)).mpr (by exact_mod_cast hcv.2)
        · norm_num
      · norm_num
      · refine ⟨div_nonneg (Nat.cast_nonneg _) (Nat.cast_nonneg _), ?_⟩
        exact (div_le_one hmtQ).mpr (by exact_mod_cast htk)

/-- Witness for C9 on a concrete reachable state (one tick, one arrival),
with three tracked slots and a 300-tick horizon. -/
theorem C9_observation_bounds_witness :
    (SimICUEnv.get_state ((SimICU.init 2 2 1 3 (1/10) 0 1).update_tick ⟨50, 5⟩)
        (fun _ => PatientType.respiratory) 3 300).length = 3 * 4 + 5 ∧
    ∀ x ∈ SimICUEnv.get_state ((SimICU.init 2 2 1 3 (1/10) 0 1).update_tick ⟨50, 5⟩)
        (fun _ => PatientType.respiratory) 3 300,
      0 ≤ x ∧ x ≤ 1 :=
  C9_observation_bounds ((SimICU.init 2 2 1 3 (1/10) 0 1).update_tick ⟨50, 5⟩)
    (fun _ => PatientType.respiratory) 3 300
    (Reachable.tick_op ⟨50, 5⟩ (by decide) (by decide)
      (Reachable.init_state 2 2 1 3 (1/10) 0 1))
    (by decide)
    (by rw [(update_tick_patients _ _).2.2]; decide)

/-! ## A fully neglected patient: the 200-tick starvation scenario -/

lemma update_patients_single_eq (X : SimICU) (p : Patient) :
    X.update_patients [p] = ((X.updateOnePatient p).1, [p.update]) := rfl

/-- The per-patient bookkeeping around a patient who holds no resources
leaves the pools and free-count caches alone and bumps the outcome counters
exactly on a first terminal transition. -/
lemma updateOnePatient_noRes (s : SimICU) (p : Patient)
    (hb : p.assigned_bed = none) (hn : p.assigned_nurse = none)
    (hv : p.assigned_ventilator = none) :
    (s.updateOnePatient p).1.free_beds = s.free_beds ∧
    (s.updateOnePatient p).1.free_nurses = s.free_nurses ∧
    (s.updateOnePatient p).1.free_vents = s.free_vents ∧
    (s.updateOnePatient p).1.patients_lost =
      s.patients_lost +
        (if p.status ≠ PatientStatus.lost ∧ p.update.status = PatientStatus.lost
         then 1 else 0) ∧
    (s.updateOnePatient p).1.patients_saved =
      s.patients_saved +
        (if p.status ≠ PatientStatus.cured ∧ p.update.status = PatientStatus.cured
         then 1 else 0) := by
  unfold SimICU.updateOnePatient
  dsimp only
  rw [hb, hn, hv]
  by_cases hcu : p.status ≠ PatientStatus.cured ∧ p.update.status = PatientStatus.cured
  · have hnl : ¬(p.status ≠ PatientStatus.lost ∧
        p.update.status = PatientStatus.lost) := by
      rintro ⟨-, hl⟩
      rw [hcu.2] at hl
      exact PatientStatus.noConfusion hl
    rw [if_pos hcu, if_neg hnl]
    split <;> exact ⟨rfl, rfl, rfl, rfl, rfl⟩
  · by_cases hlo : p.status ≠ PatientStatus.lost ∧ p.update.status = PatientStatus.lost
    · rw [if_neg hcu, if_pos hlo]
      split <;> exact ⟨rfl, rfl, rfl, rfl, rfl⟩
    · rw [if_neg hcu, if_neg hlo]
      split <;> exact ⟨rfl, rfl, rfl, rfl, rfl⟩

/-- One tick of a single-patient engine whose patient holds no resources,
away from an arrival: the patient is updated in place, the clock advances,
and the pools/caches are untouched while the outcome counters bump exactly
on a first terminal transition. -/
lemma update_tick_single (X : SimICU) (p : Patient) (r : SimICU.RandOracle)
    (hp : X.patients = [p])
    (hb : p.assigned_bed = none) (hn : p.assigned_nurse = none)
    (hv : p.assigned_ventilator = none)
    (hna : ¬ X.next_arrival ≤ X.tick + 1) :
    (X.update_tick r).patients = [p.update] ∧
    (X.update_tick r).tick = X.tick + 1 ∧
    (X.update_tick r).next_arrival = X.next_arrival ∧
    (X.update_tick r).free_beds = X.free_beds ∧
    (X.update_tick r).free_nurses = X.free_nurses ∧
    (X.update_tick r).free_vents = X.free_vents ∧
    (X.update_tick r).patients_lost =
      X.patients_lost +
        (if p.status ≠ PatientStatus.lost ∧ p.update.status = PatientStatus.lost
         then 1 else 0) ∧
    (X.update_tick r).patients_saved =
      X.patients_saved +
        (if p.status ≠ PatientStatus.cured ∧ p.update.status = PatientStatus.cured
         then 1 else 0) := by
  unfold SimICU.update_tick
  dsimp only
  rw [if_neg hna, hp, update_patients_single_eq]
  exact ⟨rfl,
    (updateOnePatient_frame _ p).2.2.2.1,
    (updateOnePatient_frame _ p).2.2.2.2.1,
    (updateOnePatient_noRes _ p hb hn hv).1,
    (updateOnePatient_noRes _ p hb hn hv).2.1,
    (updateOnePatient_noRes _ p hb hn hv).2.2.1,
    (updateOnePatient_noRes _ p hb hn hv).2.2.2.1,
    (updateOnePatient_noRes _ p hb hn hv).2.2.2.2⟩

/-- The patient record built by `SimICU.add_patient` for a draw `v`. -/
def freshPatient (X : SimICU) (v : ℤ) : Patient :=
  { id := X.next_patient_id
    severity := (v : ℚ)
    status := PatientStatus.waiting
    time_waiting := 0
    assigned_nurse := none
    assigned_bed := none
    assigned_ventilator := none
    bed_setup_ticks := 0
    vent_setup_ticks := 0 }

/-- One tick of an empty engine at an arrival: the fresh patient is created
and immediately updated, the clock advances, the arrival is rescheduled,
and the pools/caches are untouched while the outcome counters bump exactly
if the fresh patient dies or recovers on the spot. -/
lemma update_tick_arrival (X : SimICU) (r : SimICU.RandOracle)
    (hp : X.patients = [])
    (ha : X.next_arrival ≤ X.tick + 1) :
    (X.update_tick r).patients = [(freshPatient X r.sev_draw).update] ∧
    (X.update_tick r).tick = X.tick + 1 ∧
    (X.update_tick r).next_arrival = X.tick + 1 + r.gap_draw ∧
    (X.update_tick r).free_beds = X.free_beds ∧
    (X.update_tick r).free_nurses = X.free_nurses ∧
    (X.update_tick r).free_vents = X.free_vents ∧
    (X.update_tick r).patients_lost =
      X.patients_lost +
        (if (freshPatient X r.sev_draw).status ≠ PatientStatus.lost ∧
            (freshPatient X r.sev_draw).update.status = PatientStatus.lost
         then 1 else 0) ∧
    (X.update_tick r).patients_saved =
      X.patients_saved +
        (if (freshPatient X r.sev_draw).status ≠ PatientStatus.cured ∧
            (freshPatient X r.sev_draw).update.status = PatientStatus.cured
         then 1 else 0) := by
  unfold SimICU.update_tick
  dsimp only
  rw [if_pos ha]
  unfold SimICU.add_patient
  dsimp only
  rw [hp]
  simp only [List.nil_append]
  rw [update_patients_single_eq]
  exact ⟨rfl,
    (updateOnePatient_frame _ _).2.2.2.1,
    (updateOnePatient_frame _ _).2.2.2.2.1,
    (updateOnePatient_noRes _ _ rfl rfl rfl).1,
    (updateOnePatient_noRes _ _ rfl rfl rfl).2.1,
    (updateOnePatient_noRes _ _ rfl rfl rfl).2.2.1,
    (updateOnePatient_noRes _ _ rfl rfl rfl).2.2.2.1,
    (updateOnePatient_noRes _ _ rfl rfl rfl).2.2.2.2⟩

/-- A patient holding nothing still holds nothing after its per-tick
update (the update either keeps or clears the back-references). -/
lemma Patient.update_refs_none (p : Patient)
    (hb : p.assigned_bed = none) (hn : p.assigned_nurse = none)
    (hv : p.assigned_ventilator = none) :
    p.update.assigned_bed = none ∧ p.update.assigned_nurse = none ∧
    p.update.assigned_ventilator = none := by
  rcases Patient.update_cases p with ⟨-, -, hbe, hne, hve⟩ | ⟨hb0, hn0, hv0, -⟩
  · exact ⟨hbe.trans hb, hne.trans hn, hve.trans hv⟩
  · exact ⟨hb0, hn0, hv0⟩

/-- One waiting tick: the condition drops by 1/2 plus a nonnegative
escalation term; the patient either bottoms out at exactly 0 and is LOST,
or stays WAITING with the decreased (still positive) condition. -/
lemma Patient.update_waiting_char (p : Patient)
    (hst : p.status = PatientStatus.waiting) (hub : p.severity ≤ 60) :
    ∃ e : ℚ, 0 ≤ e ∧
      ((p.severity - (1/2 + e) ≤ 0 ∧ p.update.status = PatientStatus.lost ∧
          p.update.severity = 0) ∨
       (0 < p.severity - (1/2 + e) ∧ p.update.status = PatientStatus.waiting ∧
          p.update.severity = p.severity - (1/2 + e))) := by
  obtain ⟨i, sev, st, tw, an, ab, av, bs, vs⟩ := p
  dsimp only at hst hub ⊢
  subst hst
  refine ⟨(((tw + 1) / 20 : Nat) : ℚ) * (1/10), by positivity, ?_⟩
  unfold Patient.update Patient.tickCare
  dsimp only
  set e : ℚ := (((tw + 1) / 20 : Nat) : ℚ) * (1/10) with he
  have he0 : 0 ≤ e := by positivity
  by_cases hx : sev - (1/2 + e) ≤ 0
  · left
    have hq0 : qmax 0 (sev - (1/2 + e)) = 0 := by
      rw [qmax_eq]
      exact max_eq_left hx
    rw [hq0]
    unfold Patient.applyTransitions
    dsimp only
    rw [if_neg (by rintro ⟨h100, -⟩; norm_num at h100),
      if_pos ⟨le_refl 0, by decide⟩]
    exact ⟨hx, rfl, rfl⟩
  · right
    push_neg at hx
    have hq0 : qmax 0 (sev - (1/2 + e)) = sev - (1/2 + e) := by
      rw [qmax_eq]
      exact max_eq_right (le_of_lt hx)
    rw [hq0]
    unfold Patient.applyTransitions
    dsimp only
    rw [if_neg (by rintro ⟨h100, -⟩; linarith),
      if_neg (by rintro ⟨h0, -⟩; linarith)]
    exact ⟨hx, rfl, rfl⟩

/-- The starvation run: a fresh 1-bed / 1-nurse / 1-ventilator engine whose
single patient arrives on the first tick (condition draw `v`) and is then
never acted upon; `c8Run v k` is the state after `k + 1` calls to
`update_tick` (the follow-up oracle draws are irrelevant: the next arrival
is scheduled 999 ticks out). -/
def c8Run (v : ℤ) : Nat → SimICU
  | 0 => (SimICU.init 1 1 1 3 (1/10) 0 1).update_tick ⟨v, 999⟩
  | k + 1 => (c8Run v k).update_tick ⟨0, 0⟩

/-- After `j + 1` ticks the neglected patient is still WAITING, holding
nothing, its condition positive but at least (j+1)/2 below the initial
draw, and nothing has been lost yet. -/
def c8W (v : ℤ) (j : Nat) : Prop :=
  ∃ p : Patient,
    (c8Run v j).patients = [p] ∧
    p.assigned_bed = none ∧ p.assigned_nurse = none ∧
    p.assigned_ventilator = none ∧
    p.status = PatientStatus.waiting ∧
    0 < p.severity ∧ p.severity ≤ (v : ℚ) - ((j : ℚ) + 1) * (1/2) ∧
    (c8Run v j).patients_lost = 0

/-- The neglected patient has died: condition exactly 0, status LOST,
holding nothing, and the lost counter stands at one. -/
def c8L (v : ℤ) (j : Nat) : Prop :=
  ∃ p : Patient,
    (c8Run v j).patients = [p] ∧
    p.assigned_bed = none ∧ p.assigned_nurse = none ∧
    p.assigned_ventilator = none ∧
    p.status = PatientStatus.lost ∧ p.severity = 0 ∧
    (c8Run v j).patients_lost = 1

/-- Clock, arrival-schedule and free-count frame of the starvation run. -/
def c8Frame (v : ℤ) (j : Nat) : Prop :=
  (c8Run v j).tick = j + 1 ∧
  (c8Run v j).next_arrival = 1000 ∧
  (c8Run v j).free_beds = (SimICU.init 1 1 1 3 (1/10) 0 1).free_beds ∧
  (c8Run v j).free_nurses = (SimICU.init 1 1 1 3 (1/10) 0 1).free_nurses ∧
  (c8Run v j).free_vents = (SimICU.init 1 1 1 3 (1/10) 0 1).free_vents

lemma c8_base (v : ℤ) (h40 : 40 ≤ v) (h60 : v ≤ 60) :
    c8Frame v 0 ∧ (c8W v 0 ∨ c8L v 0) := by
  have harr := update_tick_arrival (SimICU.init 1 1 1 3 (1/10) 0 1)
    ⟨v, 999⟩ rfl (by decide)
  have h0 : c8Run v 0 = (SimICU.init 1 1 1 3 (1/10) 0 1).update_tick ⟨v, 999⟩ := rfl
  have hub60 : (freshPatient (SimICU.init 1 1 1 3 (1/10) 0 1) v).severity ≤ 60 := by
    show (v : ℚ) ≤ 60
    exact_mod_cast h60
  obtain ⟨e, he0, hdis⟩ := Patient.update_waiting_char
    (freshPatient (SimICU.init 1 1 1 3 (1/10) 0 1) v) rfl hub60
  have hrefs := Patient.update_refs_none
    (freshPatient (SimICU.init 1 1 1 3 (1/10) 0 1) v) rfl rfl rfl
  constructor
  · unfold c8Frame
    refine ⟨?_, ?_, ?_, ?_, ?_⟩
    · rw [h0, harr.2.1]
      decide
    · rw [h0, harr.2.2.1]
      show (SimICU.init 1 1 1 3 (1/10) 0 1).tick + 1 + 999 = 1000
      decide
    · rw [h0, harr.2.2.2.1]
    · rw [h0, harr.2.2.2.2.1]
    · rw [h0, harr.2.2.2.2.2.1]
  · rcases hdis with ⟨hneg, hlost, hsev0⟩ | ⟨hposx, hwait, hsev⟩
    · right
      unfold c8L
      refine ⟨(freshPatient (SimICU.init 1 1 1 3 (1/10) 0 1) v).update,
        by rw [h0, harr.1], hrefs.1, hrefs.2.1, hrefs.2.2, hlost, hsev0, ?_⟩
      have h8 := harr.2.2.2.2.2.2.1
      rw [if_pos ⟨(fun hh => nomatch hh), hlost⟩] at h8
      rw [h0, h8]
      decide
    · left
      unfold c8W
      refine ⟨(freshPatient (SimICU.init 1 1 1 3 (1/10) 0 1) v).update,
        by rw [h0, harr.1], hrefs.1, hrefs.2.1, hrefs.2.2, hwait, ?_, ?_, ?_⟩
      · rw [hsev]
        exact hposx
      · rw [hsev]
        have hfs : (freshPatient (SimICU.init 1 1 1 3 (1/10) 0 1) v).severity =
            (v : ℚ) := rfl
        rw [hfs]
        push_cast
        linarith
      · have hcon : ¬((freshPatient (SimICU.init 1 1 1 3 (1/10) 0 1) v).status ≠
            PatientStatus.lost ∧
            (freshPatient (SimICU.init 1 1 1 3 (1/10) 0 1) v).update.status =
              PatientStatus.lost) := by
          rintro ⟨-, hh⟩
          rw [hwait] at hh
          exact PatientStatus.noConfusion hh
        have h8 := harr.2.2.2.2.2.2.1
        rw [if_neg hcon] at h8
        rw [h0, h8]
        decide

lemma c8_stepW (v : ℤ) (k : Nat) (hk : k + 2 < 1000) (h60 : v ≤ 60)
    (hf : c8Frame v k) (hw : c8W v k) :
    c8Frame v (k + 1) ∧ (c8W v (k + 1) ∨ c8L v (k + 1)) := by
  obtain ⟨htk, hna, hfb, hfn, hfv⟩ := hf
  obtain ⟨p, hp1, hb, hn, hv, hst, hpos, hub, hl0⟩ := hw
  have hnarr : ¬ (c8Run v k).next_arrival ≤ (c8Run v k).tick + 1 := by
    rw [hna, htk]
    omega
  have hs := update_tick_single (c8Run v k) p ⟨0, 0⟩ hp1 hb hn hv hnarr
  have hsucc : c8Run v (k + 1) = (c8Run v k).update_tick ⟨0, 0⟩ := rfl
  have hub60 : p.severity ≤ 60 := by
    have hv60 : (v : ℚ) ≤ 60 := by exact_mod_cast h60
    have hk0 : (0 : ℚ) ≤ (k : ℚ) := Nat.cast_nonneg k
    linarith
  obtain ⟨e, he0, hdis⟩ := Patient.update_waiting_char p hst hub60
  have hrefs := Patient.update_refs_none p hb hn hv
  constructor
  · unfold c8Frame
    refine ⟨?_, ?_, ?_, ?_, ?_⟩
    · rw [hsucc, hs.2.1, htk]
    · rw [hsucc, hs.2.2.1, hna]
    · rw [hsucc, hs.2.2.2.1, hfb]
    · rw [hsucc, hs.2.2.2.2.1, hfn]
    · rw [hsucc, hs.2.2.2.2.2.1, hfv]
  · rcases hdis with ⟨hneg, hlost, hsev0⟩ | ⟨hposx, hwait, hsev⟩
    · right
      unfold c8L
      refine ⟨p.update, by rw [hsucc, hs.1], hrefs.1, hrefs.2.1, hrefs.2.2,
        hlost, hsev0, ?_⟩
      have h8 := hs.2.2.2.2.2.2.1
      rw [if_pos ⟨by rw [hst]; decide, hlost⟩, hl0] at h8
      rw [hsucc, h8]
    · left
      unfold c8W
      refine ⟨p.update, by rw [hsucc, hs.1], hrefs.1, hrefs.2.1, hrefs.2.2,
        hwait, ?_, ?_, ?_⟩
      · rw [hsev]
        exact hposx
      · rw [hsev]
        push_cast
        linarith
      · have hcon : ¬(p.status ≠ PatientStatus.lost ∧
            p.update.status = PatientStatus.lost) := by
          rintro ⟨-, hh⟩
          rw [hwait] at hh
          exact PatientStatus.noConfusion hh
        have h8 := hs.2.2.2.2.2.2.1
        rw [if_neg hcon, hl0] at h8
        rw [hsucc, h8]

lemma c8_stepL (v : ℤ) (k : Nat) (hk : k + 2 < 1000)
    (hf : c8Frame v k) (hl : c8L v k) :
    c8Frame v (k + 1) ∧ c8L v (k + 1) := by
  obtain ⟨htk, hna, hfb, hfn, hfv⟩ := hf
  obtain ⟨p, hp1, hb, hn, hv, hst, hsev, hl1⟩ := hl
  have hnarr : ¬ (c8Run v k).next_arrival ≤ (c8Run v k).tick + 1 := by
    rw [hna, htk]
    omega
  have hs := update_tick_single (c8Run v k) p ⟨0, 0⟩ hp1 hb hn hv hnarr
  have hsucc : c8Run v (k + 1) = (c8Run v k).update_tick ⟨0, 0⟩ := rfl
  have hfix : p.update = p := Patient.update_lost_fix p hst (by rw [hsev]; norm_num)
  have hcon : ¬(p.status ≠ PatientStatus.lost ∧
      p.update.status = PatientStatus.lost) := fun hcc => hcc.1 hst
  constructor
  · unfold c8Frame
    refine ⟨?_, ?_, ?_, ?_, ?_⟩
    · rw [hsucc, hs.2.1, htk]
    · rw [hsucc, hs.2.2.1, hna]
    · rw [hsucc, hs.2.2.2.1, hfb]
    · rw [hsucc, hs.2.2.2.2.1, hfn]
    · rw [hsucc, hs.2.2.2.2.2.1, hfv]
  · unfold c8L
    refine ⟨p, by rw [hsucc, hs.1, hfix], hb, hn, hv, hst, hsev, ?_⟩
    have h8 := hs.2.2.2.2.2.2.1
    rw [if_neg hcon, hl1] at h8
    rw [hsucc, h8]

lemma c8_main (v : ℤ) (h40 : 40 ≤ v) (h60 : v ≤ 60) :
    ∀ k : Nat, k ≤ 199 →
      c8Frame v k ∧
      ((∀ j, j ≤ k → c8W v j) ∨
       (∃ k0, k0 ≤ k ∧ (∀ j, j < k0 → c8W v j) ∧
          ∀ j, k0 ≤ j → j ≤ k → c8L v j)) := by
  intro k
  induction k with
  | zero =>
    intro _
    obtain ⟨hf, hwl⟩ := c8_base v h40 h60
    refine ⟨hf, ?_⟩
    rcases hwl with hw | hl
    · left
      intro j hj
      have hj0 : j = 0 := Nat.le_zero.mp hj
      rw [hj0]
      exact hw
    · right
      refine ⟨0, le_refl 0, fun j hj => absurd hj (Nat.not_lt_zero j), ?_⟩
      intro j h0j hj0
      have hj0 : j = 0 := Nat.le_zero.mp hj0
      rw [hj0]
      exact hl
  | succ k ih =>
    intro hk1
    obtain ⟨hf, hwl⟩ := ih (by omega)
    rcases hwl with hw | ⟨k0, hk0, hWs, hLs⟩
    · obtain ⟨hf', hwl'⟩ := c8_stepW v k (by omega) h60 hf (hw k (le_refl k))
      refine ⟨hf', ?_⟩
      rcases hwl' with hw' | hl'
      · left
        intro j hj
        rcases Nat.lt_or_ge j (k + 1) with hlt | hge
        · exact hw j (by omega)
        · have hje : j = k + 1 := by omega
          rw [hje]
          exact hw'
      · right
        refine ⟨k + 1, le_refl _, fun j hj => hw j (by omega), ?_⟩
        intro j hj1 hj2
        have hje : j = k + 1 := by omega
        rw [hje]
        exact hl'
    · obtain ⟨hf', hl'⟩ := c8_stepL v k (by omega) hf (hLs k hk0 (le_refl k))
      refine ⟨hf', Or.inr ⟨k0, by omega, hWs, ?_⟩⟩
      intro j hj1 hj2
      rcases Nat.lt_or_ge j (k + 1) with hlt | hge
      · exact hLs j hj1 (by omega)
      · have hje : j = k + 1 := by omega
        rw [hje]
        exact hl'

/-- C8: in the starvation run — an engine whose single patient arrives with
a `randint(40, 60)` condition draw and is never assigned any resource — the
patient reaches condition exactly 0 and status LOST within the first 200
ticks: at some tick index at most 199 the lost counter moves from 0 to 1
and stays at 1 for the rest of the run (so it increments exactly once, on
the transition tick), while `free_beds`, `free_nurses` and `free_vents`
never change from their initial values (the patient held no resources). -/
theorem C8_neglected_patient (v : ℤ) (h40 : 40 ≤ v) (h60 : v ≤ 60) :
    (∀ j, j ≤ 199 →
       (c8Run v j).free_beds = (SimICU.init 1 1 1 3 (1/10) 0 1).free_beds ∧
       (c8Run v j).free_nurses = (SimICU.init 1 1 1 3 (1/10) 0 1).free_nurses ∧
       (c8Run v j).free_vents = (SimICU.init 1 1 1 3 (1/10) 0 1).free_vents) ∧
    ∃ k, k ≤ 199 ∧
      (∀ j, j < k → ∃ p : Patient, (c8Run v j).patients = [p] ∧
         p.status = PatientStatus.waiting ∧ (c8Run v j).patients_lost = 0) ∧
      (∀ j, k ≤ j → j ≤ 199 → ∃ p : Patient, (c8Run v j).patients = [p] ∧
         p.status = PatientStatus.lost ∧ p.severity = 0 ∧
         (c8Run v j).patients_lost = 1) := by
  constructor
  · intro j hj
    obtain ⟨hf, -⟩ := c8_main v h40 h60 j hj
    exact ⟨hf.2.2.1, hf.2.2.2.1, hf.2.2.2.2⟩
  · obtain ⟨-, hwl⟩ := c8_main v h40 h60 199 (le_refl _)
    rcases hwl with hw | ⟨k0, hk0, hWs, hLs⟩
    · exfalso
      obtain ⟨p, -, -, -, -, -, hpos, hub, -⟩ := hw 199 (le_refl _)
      have hv60 : (v : ℚ) ≤ 60 := by exact_mod_cast h60
      have h199 : ((199 : ℕ) : ℚ) = 199 := by norm_num
      rw [h199] at hub
      linarith
    · refine ⟨k0, hk0, ?_, ?_⟩
      · intro j hj
        obtain ⟨p, hp1, -, -, -, hst, -, -, hl0⟩ := hWs j hj
        exact ⟨p, hp1, hst, hl0⟩
      · intro j hj1 hj2
        obtain ⟨p, hp1, -, -, -, hst, hsev, hl1⟩ := hLs j hj1 hj2
        exact ⟨p, hp1, hst, hsev, hl1⟩

/-- Witness for C8 at the concrete draw 50. -/
theorem C8_neglected_patient_witness :
    (40 : ℤ) ≤ 50 ∧ (50 : ℤ) ≤ 60 ∧
    ((∀ j, j ≤ 199 →
       (c8Run 50 j).free_beds = (SimICU.init 1 1 1 3 (1/10) 0 1).free_beds ∧
       (c8Run 50 j).free_nurses = (SimICU.init 1 1 1 3 (1/10) 0 1).free_nurses ∧
       (c8Run 50 j).free_vents = (SimICU.init 1 1 1 3 (1/10) 0 1).free_vents) ∧
    ∃ k, k ≤ 199 ∧
      (∀ j, j < k → ∃ p : Patient, (c8Run 50 j).patients = [p] ∧
         p.status = PatientStatus.waiting ∧ (c8Run 50 j).patients_lost = 0) ∧
      (∀ j, k ≤ j → j ≤ 199 → ∃ p : Patient, (c8Run 50 j).patients = [p] ∧
         p.status = PatientStatus.lost ∧ p.severity = 0 ∧
         (c8Run 50 j).patients_lost = 1)) :=
  ⟨by decide, by decide, C8_neglected_patient 50 (by decide) (by decide)⟩
